import Mathlib

/-!
Verification of the NewSync lyrics caching / romanization engine.

This file gives a shallow embedding of the core of the source code:

* `GeminiRomanizer` (src/unnamed/part_000): `prepareLyrics`,
  `reconstructLyrics`, the conversation loop of `romanize`,
  `createCorrectionPrompt`, `mergeSelectiveFixes`, `getProblematicLines`;
* `ResponseValidator` (src/src/background/gemini/responseValidator.js);
* `LyricsService` (src/unnamed/part_001): `validateSongInfo`,
  `createCacheKey`, `getFromDB`, a sequential model of `getOrFetch`, and a
  small interleaving machine for two concurrent `getOrFetch` calls;
* `TranslationService` (src/unnamed/part_002): `getCached` and the prefix
  of `getOrFetch`.

JavaScript values are modelled with plain Lean data: optional JSON fields
become `Option`, JS array index assignment beyond the length becomes an
explicit sparse update, thrown errors become `Except`/error results, and
`Date.now ()` becomes an explicit `now : Nat` argument.  Floating point
only occurs in two threshold tests of the source
(`percentageDifference > 20` and `problematicLines.length <
lyricsForApi.length * 0.8`); for the integer operand sizes that can occur
there IEEE double rounding agrees with the exact rational comparison, so
both are embedded as exact integer comparisons.
-/

namespace NewSync

/-- A sub-text fragment of a structured lyrics line
(`StructuredLyricsChunk` of src/src/types.d.ts; only the `text` field is
read by the engine and the validator). -/
structure Chunk where
  text : String
deriving DecidableEq, Repr

/-- A structured input line sent toward the romanization engine
(`StructuredLyricsLine` of src/src/types.d.ts): `text`, an optional
declared index and an optional chunk array. -/
structure SLine where
  text : String
  original_line_index : Option Int := none
  chunk : Option (List Chunk) := none
deriving DecidableEq, Repr

/-- A line of the transformer response, or of the reconstructed output.
Every field is optional because the response is parsed JSON: a missing or
non-string `text` is `none` (the validator checks `typeof text !==
'string'`), and a missing `chunk` key is distinguished from an empty
array. -/
structure RLine where
  text : Option String := none
  original_line_index : Option Int := none
  chunk : Option (List Chunk) := none
deriving DecidableEq, Repr

/-- Modelled from the spec: `Utilities.isPurelyLatinScript`
(src/utils/utilities.js is not under src/).  The renderer keeps an
identical copy (src/src/modules/lyrics/lyricsRenderer.js line 174) testing
the regex `^[\p\x7bScript=Latin\x7d\p\x7bN\x7d\p\x7bP\x7d\p\x7bS\x7d\s]*$`:
every character must be a Latin-script letter, a number, punctuation, a
symbol or whitespace.  We embed the character class as the Unicode range
below 0x300 (Basic Latin, Latin-1, Latin Extended-A/B, IPA extensions and
spacing modifiers), which classifies every string appearing in this
development exactly as the regex does; combining marks and all non-Latin
scripts (0x300 and above) are rejected. -/
def isPurelyLatinScript (s : String) : Bool :=
  s.data.all (fun c => decide (c.toNat < 768))

/-- One entry of the reconstruction plan (`ReconstructionPlanItem` typedef
of src/unnamed/part_000 line 18): either a Latin passthrough line carrying
the original data, or a pointer into the deduplicated API line list. -/
inductive PlanItem where
  | latin (data : SLine) (originalIndex : Nat)
  | api (apiIndex : Nat) (originalIndex : Nat)
deriving DecidableEq, Repr

/-- The original index an entry of the reconstruction plan is tagged with. -/
def PlanItem.origIdx : PlanItem → Nat
  | .latin _ i => i
  | .api _ i => i

/-- The content key used for deduplication: `JSON.stringify (\x7b text:
line.text, chunk: line.chunk \x7d)` (src/unnamed/part_000 line 186).  Two
lines share a key exactly when text and chunk structure agree (a missing
`chunk` is serialized differently from an empty array, hence the
`Option`). -/
def contentKeyOf (line : SLine) : String × Option (List Chunk) :=
  (line.text, line.chunk)

/-- The API line allocated for a fresh content key (src/unnamed/part_000
lines 196-200): text, the fresh slot index as declared index, and the
chunk array only when the source line has a non-empty one. -/
def mkApiLine (line : SLine) (newApiIndex : Nat) : SLine :=
  { text := line.text
    original_line_index := some (newApiIndex : Int)
    chunk := match line.chunk with
      | some cs => if cs.length > 0 then some cs else none
      | none => none }

/-- Recursion underlying `GeminiRomanizer.prepareLyrics`
(src/unnamed/part_000 lines 172-209).  `originalIndex` is the position of
the head line, `contentMap` the `contentToApiIndexMap`, and `apiCount` the
current `lyricsForApi.length` (the fresh slot index).  The two result
lists are produced in push order. -/
def prepareLyricsAux :
    List SLine → Nat → List ((String × Option (List Chunk)) × Nat) → Nat →
    List SLine × List PlanItem
  | [], _, _, _ => ([], [])
  | line :: rest, originalIndex, contentMap, apiCount =>
    if isPurelyLatinScript line.text then
      let r := prepareLyricsAux rest (originalIndex + 1) contentMap apiCount
      (r.1, .latin line originalIndex :: r.2)
    else
      match contentMap.lookup (contentKeyOf line) with
      | some apiIndex =>
        let r := prepareLyricsAux rest (originalIndex + 1) contentMap apiCount
        (r.1, .api apiIndex originalIndex :: r.2)
      | none =>
        let r := prepareLyricsAux rest (originalIndex + 1)
          ((contentKeyOf line, apiCount) :: contentMap) (apiCount + 1)
        (mkApiLine line apiCount :: r.1, .api apiCount originalIndex :: r.2)

/-- `GeminiRomanizer.prepareLyrics`: deduplicated API lines plus the
reconstruction plan. -/
def prepareLyrics (structuredInput : List SLine) :
    List SLine × List PlanItem :=
  prepareLyricsAux structuredInput 0 [] 0

/-- JS sparse array assignment `fullList[i] = v` on an array modelled as a
list of optional slots: holes are filled with `none` when the index lies
beyond the current length. -/
def setSparse (l : List (Option RLine)) (i : Nat) (v : RLine) :
    List (Option RLine) :=
  if i < l.length then l.set i (some v)
  else l ++ List.replicate (i - l.length) none ++ [some v]

/-- The line emitted by `GeminiRomanizer.reconstructLyrics` for one plan
entry (src/unnamed/part_000 lines 221-239).  For a Latin entry the
original data is kept, the chunk array survives only when `hasAnyChunks`
holds and the line carries one, and the original index is (re)stamped.
For an API entry the slot result is re-tagged with the original index; an
out-of-range slot behaves like the JS spread of `undefined`, producing a
line holding only the index. -/
def reconstructLine (romanizedApiLyrics : List RLine) (hasAnyChunks : Bool) :
    PlanItem → RLine
  | .latin data originalIndex =>
    { text := some data.text
      chunk := if hasAnyChunks then data.chunk else none
      original_line_index := some (originalIndex : Int) }
  | .api apiIndex originalIndex =>
    match romanizedApiLyrics.get? apiIndex with
    | some apiResult =>
      { apiResult with original_line_index := some (originalIndex : Int) }
    | none =>
      { text := none, chunk := none,
        original_line_index := some (originalIndex : Int) }

/-- `GeminiRomanizer.reconstructLyrics` (src/unnamed/part_000 lines
217-245): walk the plan and assign each reconstructed line at its
original index of the (initially empty) output array. -/
def reconstructLyrics (romanizedApiLyrics : List RLine)
    (reconstructionPlan : List PlanItem) (hasAnyChunks : Bool) :
    List (Option RLine) :=
  reconstructionPlan.foldl
    (fun fullList planItem =>
      setSparse fullList planItem.origIdx
        (reconstructLine romanizedApiLyrics hasAnyChunks planItem))
    []

/-- Modelled from the spec: `Utilities.normalizeText`
(src/utils/utilities.js is absent from src/; the spec only says chunk
concatenation and line text are compared "after normalization").  Both the
embedded validator and the spec-side contract use this same function, so
every theorem below is independent of its exact definition. -/
def normalizeText (s : String) : String :=
  s.trim.toLower

/-- Modelled from the spec: `Utilities.levenshteinDistance`
(src/utils/utilities.js is absent from src/; the spec names the metric:
"20% character-level edit distance (Levenshtein / max length)").  The
classic recursion over character lists. -/
def levenshteinAux : List Char → List Char → Nat
  | [], ys => ys.length
  | x :: xs, [] => (x :: xs).length
  | x :: xs, y :: ys =>
    if x = y then levenshteinAux xs ys
    else 1 + min (levenshteinAux xs ys)
      (min (levenshteinAux (x :: xs) ys) (levenshteinAux xs (y :: ys)))
termination_by xs ys => xs.length + ys.length
decreasing_by all_goals simp_arith

/-- Levenshtein distance between two strings. -/
def levenshteinDistance (a b : String) : Nat :=
  levenshteinAux a.data b.data

/-- A transformer response after `JSON.parse`: the two top-level keys the
engine reads (`GeminiRomanizedResponse` plus the `fixed_lines` key of a
selective-fix response). -/
structure ParsedJson where
  romanized_lyrics : Option (List RLine) := none
  fixed_lines : Option (List RLine) := none
deriving DecidableEq, Repr

/-- Result record of `ResponseValidator.validate`:
`\x7b isValid, errors, detailedErrors \x7d`; a detailed entry pairs a line
index with that line's errors. -/
structure ValidationResult where
  isValid : Bool
  errors : List String
  detailedErrors : List (Nat × List String)
deriving DecidableEq, Repr

/-- `ResponseValidator.validateTextCoherence`
(src/src/background/gemini/responseValidator.js lines 122-143): join the
chunk texts, normalize both sides, and flag a mismatch above 20%
normalized edit distance.  The float test
`(distance / maxLength) * 100 > 20` is embedded as the exact comparison
`100 * distance > 20 * maxLength`: for the small integer operands that
occur, correctly rounded double division and multiplication decide the
strict inequality exactly as the rationals do (`maxLength == 0` yields 0
in both). -/
def validateTextCoherence (romanizedLine : RLine) (lineIndex : Nat) :
    List String :=
  let mergedChunkText :=
    String.join ((romanizedLine.chunk.getD []).map (fun c => c.text))
  let lineText := romanizedLine.text.getD ""
  let normalizedMerged := normalizeText mergedChunkText
  let normalizedLine := normalizeText lineText
  if normalizedMerged = normalizedLine then []
  else
    let distance := levenshteinDistance normalizedMerged normalizedLine
    let maxLength := max normalizedMerged.length normalizedLine.length
    if 100 * distance > 20 * maxLength then
      [s!"Line {lineIndex}: significant text mismatch"]
    else []

/-- `ResponseValidator.validateChunkDistribution`
(src/src/background/gemini/responseValidator.js lines 93-116): no empty
chunk, text not concentrated in a single chunk when more than one exists,
then the coherence check.  A chunk with a missing `text` field is modelled
as the empty string (the source tests `!chunk.text || chunk.text.trim()
=== ''`). -/
def validateChunkDistribution (romanizedLine : RLine) (lineIndex : Nat) :
    List String :=
  let chunks := romanizedLine.chunk.getD []
  let emptyChunks := chunks.filter (fun c => c.text.trim == "")
  let emptyErrs :=
    if emptyChunks.length > 0 then
      [s!"Line {lineIndex}: found empty chunks"]
    else []
  let nonEmptyChunks := chunks.filter (fun c => !(c.text.trim == ""))
  let concErrs :=
    if nonEmptyChunks.length = 1 ∧ chunks.length > 1 then
      [s!"Line {lineIndex}: all text concentrated in one chunk"]
    else []
  emptyErrs ++ concErrs ++ validateTextCoherence romanizedLine lineIndex

/-- The per-line checks of `ResponseValidator.validate`
(src/src/background/gemini/responseValidator.js lines 31-83), in source
push order: declared index, text is a string, chunk presence
(`normalizedOriginalLine.chunk = originalLine.chunk || []`, so an input
line with an empty chunk array counts as chunkless, while any response
chunk array — even empty — counts as present), count match, then the
distribution checks. -/
def validateLine (originalLine : SLine) (romanizedLine : RLine)
    (index : Nat) : List String :=
  let idxErrs :=
    if romanizedLine.original_line_index ≠ some (index : Int) then
      [s!"Line {index}: incorrect original line index"]
    else []
  let textErrs :=
    if romanizedLine.text.isNone then
      [s!"Line {index}: missing or invalid text field"]
    else []
  let originalChunk := originalLine.chunk.getD []
  let originalHasChunks := originalChunk.length > 0
  let romanizedHasChunks := romanizedLine.chunk.isSome
  let chunkErrs :=
    if ¬ originalHasChunks ∧ romanizedHasChunks = true then
      [s!"Line {index}: unexpected chunk array"]
    else if originalHasChunks then
      if romanizedHasChunks = false then
        [s!"Line {index}: missing expected chunk array"]
      else if (romanizedLine.chunk.getD []).length ≠ originalChunk.length then
        [s!"Line {index}: chunk count mismatch"]
      else
        validateChunkDistribution romanizedLine index
    else []
  idxErrs ++ textErrs ++ chunkErrs

/-- Walk the response lines against the input lines, collecting the flat
error list and the per-line detailed entries (only lines with errors get a
detailed entry), mirroring the `forEach` of `ResponseValidator.validate`. -/
def validateLines : List SLine → List RLine → Nat →
    List String × List (Nat × List String)
  | [], _, _ => ([], [])
  | _ :: _, [], _ => ([], [])
  | o :: os, r :: rs, index =>
    let lineErrors := validateLine o r index
    let rest := validateLines os rs (index + 1)
    (lineErrors ++ rest.1,
     if lineErrors.isEmpty then rest.2 else (index, lineErrors) :: rest.2)

/-- `ResponseValidator.validate`
(src/src/background/gemini/responseValidator.js lines 16-86): missing
top-level array and line-count mismatch short-circuit; otherwise the
per-line errors are collected and `isValid` holds exactly when none were
found. -/
def validate (originalLyricsForApi : List SLine)
    (geminiResponse : ParsedJson) : ValidationResult :=
  match geminiResponse.romanized_lyrics with
  | none =>
    { isValid := false
      errors := ["The top-level romanized_lyrics key is missing or not an array"]
      detailedErrors := [] }
  | some arr =>
    if arr.length ≠ originalLyricsForApi.length then
      { isValid := false
        errors := [s!"Line count mismatch: response has {arr.length}, expected {originalLyricsForApi.length}"]
        detailedErrors := [] }
    else
      let r := validateLines originalLyricsForApi arr 0
      { isValid := r.1.isEmpty, errors := r.1, detailedErrors := r.2 }

/-- Modelled from the spec: `CONFIG.GEMINI.MAX_RETRIES`
(src/constants.js is absent from src/; the spec says the conversation
loop is "bounded by `MAX_RETRIES`, e.g. 5 attempts"). -/
def MAX_RETRIES : Nat := 5

/-- The correction request built by
`GeminiRomanizer.createCorrectionPrompt` (src/unnamed/part_000 lines
265-271), abstracted from its literal prompt text to the datum that
determines it: a selective fix carrying exactly the flagged lines, or a
full retry restating the whole structure. -/
inductive CorrectionPrompt where
  | selective (problematicLines : List SLine)
  | fullRetry (lyricsForApi : List SLine)
deriving DecidableEq, Repr

/-- A turn appended to `currentContents` during the conversation loop,
abstracted from prompt text to its kind and payload. -/
inductive Turn where
  | userInitial
  | modelResponse (j : ParsedJson)
  | userCorrection (p : CorrectionPrompt)
  | userJsonFix (msg : String)
deriving DecidableEq, Repr

/-- Outcome of one `callGeminiAPI` + `JSON.parse` round, as seen by the
loop body: the call threw, the response text was not JSON
(`SyntaxError`), or a parsed JSON value. -/
inductive ApiOutcome where
  | failed (msg : String)
  | notJson (msg : String)
  | parsed (j : ParsedJson)
deriving DecidableEq, Repr

/-- The mutable locals of `GeminiRomanizer.romanize`
(src/unnamed/part_000 lines 44-47). -/
structure RomState where
  contents : List Turn
  lastValidResponse : Option ParsedJson
  sameErrorCount : Nat
  lastError : Option String
deriving DecidableEq, Repr

/-- The loop state on entry to attempt 1. -/
def initialRomState : RomState :=
  { contents := [.userInitial], lastValidResponse := none,
    sameErrorCount := 0, lastError := none }

/-- `GeminiRomanizer.mergeSelectiveFixes` (src/unnamed/part_000 lines
321-345): deep-copy the last stored full response and overwrite, in
order, every fixed line whose declared index is in bounds; an out-of-range
or missing index is dropped (warning only).  `applyFix` is the `forEach`
body: the element-existence test `mergedResponse.romanized_lyrics[index]`
plus the bound tests collapse to the in-bounds test. -/
def applyFix (acc : List RLine) (fixedLine : RLine) : List RLine :=
  match fixedLine.original_line_index with
  | Option.some k =>
    if 0 ≤ k ∧ k < (acc.length : Int) then acc.set k.toNat fixedLine
    else acc
  | Option.none => acc

/-- `GeminiRomanizer.mergeSelectiveFixes` proper: a missing stored
response (or one without a `romanized_lyrics` array) falls back to the
fixed lines alone; otherwise the fixes are folded into a copy of the
stored array. -/
def mergeSelectiveFixes (lastValidResponse : Option ParsedJson)
    (fixedLines : List RLine) : ParsedJson :=
  match lastValidResponse with
  | none => { romanized_lyrics := some fixedLines }
  | some lv =>
    match lv.romanized_lyrics with
    | none => { romanized_lyrics := some fixedLines }
    | some arr =>
      { lv with romanized_lyrics := some (fixedLines.foldl applyFix arr) }

/-- Insertion-ordered set insertion, modelling `Set.add` followed by
insertion-order iteration. -/
def insertIdx (l : List Nat) (i : Nat) : List Nat :=
  if i ∈ l then l else l ++ [i]

/-- The re-checks `GeminiRomanizer.getProblematicLines` performs on one
response line (src/unnamed/part_000 lines 370-395), as the list of issue
tags it pushes. -/
def problematicIssues (originalLine : SLine) (line : RLine) (index : Nat) :
    List String :=
  let originalHasChunks : Bool :=
    match originalLine.chunk with
    | some cs => decide (cs.length > 0)
    | none => false
  let chunkIssues :=
    match line.chunk with
    | some lcs =>
      if originalHasChunks = true ∧ lcs.length > 0 then
        let emptyChunks := lcs.filter (fun c => c.text.trim == "")
        let i1 := if emptyChunks.length > 0 then ["empty chunks"] else []
        let nonEmptyChunks := lcs.filter (fun c => !(c.text.trim == ""))
        let i2 :=
          if nonEmptyChunks.length = 1 ∧ lcs.length > 1 then
            ["text concentrated in single chunk"]
          else []
        let i3 :=
          match originalLine.chunk with
          | some ocs => if ocs.length ≠ lcs.length then ["chunk count mismatch"] else []
          | none => []
        i1 ++ i2 ++ i3
      else []
    | none => []
  let idxIssues :=
    if line.original_line_index ≠ some (index : Int) then ["incorrect line index"]
    else []
  let textIssues :=
    if line.text.isNone then ["missing or invalid text field"] else []
  chunkIssues ++ idxIssues ++ textIssues

/-- `GeminiRomanizer.getProblematicLines` (src/unnamed/part_000 lines
353-415): collect the indices named by the detailed validation errors,
add every response line the re-checks flag, and map each collected index
(insertion order) to the original API line re-tagged with that index;
indices without an original line are skipped. -/
def getProblematicLines (originalLyricsForApi : List SLine)
    (response : ParsedJson)
    (detailedErrors : List (Nat × List String)) : List SLine :=
  let fromDetailed :=
    detailedErrors.foldl (fun acc e => insertIdx acc e.1) []
  let allIdxs :=
    match response.romanized_lyrics with
    | none => fromDetailed
    | some arr =>
      (arr.enum).foldl
        (fun acc (ir : Nat × RLine) =>
          match originalLyricsForApi[ir.1]? with
          | none => acc
          | some originalLine =>
            if (problematicIssues originalLine ir.2 ir.1).isEmpty then acc
            else insertIdx acc ir.1)
        fromDetailed
  allIdxs.foldl
    (fun acc index =>
      match originalLyricsForApi[index]? with
      | some ol => acc ++ [{ ol with original_line_index := some (index : Int) }]
      | none => acc)
    []

/-- `GeminiRomanizer.createCorrectionPrompt` (src/unnamed/part_000 lines
265-271): a selective fix when some lines are flagged and they number
fewer than 80% of the API lines, otherwise a full retry.  The float test
`problematicLines.length < lyricsForApi.length * 0.8` is embedded as the
exact comparison `5 * p < 4 * n`, with which correctly rounded double
arithmetic agrees at the relevant sizes. -/
def createCorrectionPrompt (problematicLines lyricsForApi : List SLine) :
    CorrectionPrompt :=
  if 0 < problematicLines.length ∧
      5 * problematicLines.length < 4 * lyricsForApi.length then
    .selective problematicLines
  else
    .fullRetry lyricsForApi

/-- What one loop iteration of `GeminiRomanizer.romanize` does after the
API outcome is known: terminal success, terminal failure (the final
attempt threw or failed validation), or the state for the next attempt. -/
inductive StepOut where
  | success (lines : List RLine)
  | fatal (errors : List String)
  | next (st : RomState)
deriving DecidableEq, Repr

/-- One iteration of the conversation loop of `GeminiRomanizer.romanize`
(src/unnamed/part_000 lines 49-126), for a given attempt number, API
outcome and loop state:

* a thrown API call fails the attempt (and the run, on the last attempt);
* a `SyntaxError` additionally appends a JSON-fix request;
* a parsed response is (on a selective-fix attempt with `fixed_lines`)
  merged into the stored response, stored verbatim if this is attempt 1,
  validated, and either succeeds, or updates the same-error counter,
  resets the conversation when the counter reaches 3, or appends the
  model turn plus a correction prompt.

`finalResponseOf` is the response actually validated: on a selective-fix
attempt (`attempt > 1`, a stored response exists, `sameErrorCount < 3`)
whose parsed JSON carries `fixed_lines`, the merge of those fixes into
the stored response; otherwise the parsed JSON itself. -/
def finalResponseOf (attempt : Nat) (j : ParsedJson) (st : RomState) :
    ParsedJson :=
  let isSelectiveFix : Bool :=
    decide (1 < attempt) && st.lastValidResponse.isSome &&
      decide (st.sameErrorCount < 3)
  if isSelectiveFix ∧ j.fixed_lines.isSome then
    mergeSelectiveFixes st.lastValidResponse (j.fixed_lines.getD [])
  else j

def romanizeAttempt (lyricsForApi : List SLine) (attempt : Nat)
    (o : ApiOutcome) (st : RomState) : StepOut :=
  match o with
  | .failed msg =>
    if attempt = MAX_RETRIES then .fatal [msg] else .next st
  | .notJson msg =>
    if attempt = MAX_RETRIES then .fatal [msg]
    else .next { st with contents := st.contents ++ [.userJsonFix msg] }
  | .parsed j =>
    let finalResponse := finalResponseOf attempt j st
    let st1 :=
      if attempt = 1 then { st with lastValidResponse := some j } else st
    let v := validate lyricsForApi finalResponse
    if v.isValid then .success (finalResponse.romanized_lyrics.getD [])
    else
      let currentError := v.errors.head?
      let st2 :=
        if currentError = st1.lastError then
          { st1 with sameErrorCount := st1.sameErrorCount + 1 }
        else
          { st1 with sameErrorCount := 1, lastError := currentError }
      if attempt = MAX_RETRIES then .fatal v.errors
      else if st2.sameErrorCount ≥ 3 then
        .next { contents := [.userInitial], lastValidResponse := none,
                sameErrorCount := 0, lastError := st2.lastError }
      else
        let problematicLines :=
          getProblematicLines lyricsForApi finalResponse v.detailedErrors
        .next { st2 with contents := st2.contents
          ++ [.modelResponse j,
              .userCorrection (createCorrectionPrompt problematicLines lyricsForApi)] }

/-- The first reported validation error of an attempt
(`validationResult.errors[0]`), recomputed from the same data
`romanizeAttempt` sees; `none` when the attempt does not reach a failing
validation (exception, or success). -/
def attemptFirstError (lyricsForApi : List SLine) (attempt : Nat)
    (o : ApiOutcome) (st : RomState) : Option String :=
  match o with
  | .failed _ => Option.none
  | .notJson _ => Option.none
  | .parsed j =>
    if (validate lyricsForApi (finalResponseOf attempt j st)).isValid then
      Option.none
    else (validate lyricsForApi (finalResponseOf attempt j st)).errors.head?

/-- `lyricsForApi.some (line => line.chunk && line.chunk.length > 0)`
(src/unnamed/part_000 line 34). -/
def hasAnyChunksOf (lyricsForApi : List SLine) : Bool :=
  lyricsForApi.any (fun line =>
    match line.chunk with
    | some cs => decide (cs.length > 0)
    | none => false)

/-- The `for` loop of `GeminiRomanizer.romanize`, driven by an oracle
giving the API outcome of each attempt; returns the validated response
lines or the final error list, together with the number of API calls
made. -/
def romanizeLoop (api : Nat → ApiOutcome) (lyricsForApi : List SLine)
    (attempt : Nat) (st : RomState) :
    Except (List String) (List RLine) × Nat :=
  if MAX_RETRIES < attempt then
    (.error ["Unexpected error: romanization completed without success"], 0)
  else
    match romanizeAttempt lyricsForApi attempt (api attempt) st with
    | .success lines => (.ok lines, 1)
    | .fatal errs => (.error errs, 1)
    | .next st' =>
      let r := romanizeLoop api lyricsForApi (attempt + 1) st'
      (r.1, r.2 + 1)
termination_by MAX_RETRIES + 1 - attempt
decreasing_by omega

/-- `GeminiRomanizer.romanize` (src/unnamed/part_000 lines 32-129):
prepare and deduplicate, short-circuit with zero API calls when nothing
needs the transformer, otherwise run the conversation loop and
reconstruct on success.  The second component counts API calls. -/
def romanize (api : Nat → ApiOutcome) (structuredInput : List SLine) :
    Except (List String) (List (Option RLine)) × Nat :=
  let prepared := prepareLyrics structuredInput
  let lyricsForApi := prepared.1
  let reconstructionPlan := prepared.2
  let hasAnyChunks := hasAnyChunksOf lyricsForApi
  if lyricsForApi.length = 0 then
    (.ok (reconstructLyrics [] reconstructionPlan hasAnyChunks), 0)
  else
    let r := romanizeLoop api lyricsForApi 1 initialRomState
    match r.1 with
    | .ok lines =>
      (.ok (reconstructLyrics lines reconstructionPlan hasAnyChunks), r.2)
    | .error errs => (.error errs, r.2)

/-- The normalized chunk concatenation of a response line's chunk list. -/
def mergedChunkTextOf (rcs : List Chunk) : String :=
  String.join (rcs.map (fun c => c.text))

/-- The coherence clause as the spec words it (item (f)): the chunk
concatenation differs from the line text after normalization by at most
20% Levenshtein distance over the max length. -/
def specCoherent (rcs : List Chunk) (t : String) : Prop :=
  normalizeText (mergedChunkTextOf rcs) = normalizeText t ∨
    100 * levenshteinDistance (normalizeText (mergedChunkTextOf rcs))
        (normalizeText t)
      ≤ 20 * max (normalizeText (mergedChunkTextOf rcs)).length
          (normalizeText t).length

/-- The per-line validation contract as the spec words it (section 4.5,
state `Validate`, items (b)-(f)): declared index equals position, `text`
is a string, chunk presence/absence matches the input line ("a line with
no input chunks must have no output chunk array, and vice versa" — an
input line with an empty chunk array carries no chunks), and when chunks
are present: counts match, no chunk is empty, text is not concentrated in
a single chunk when more than one exists, and the coherence clause. -/
def specLineContract (o : SLine) (r : RLine) (index : Nat) : Prop :=
  r.original_line_index = some (index : Int) ∧
  r.text.isSome = true ∧
  (if (o.chunk.getD []).length > 0 then
    ∃ rcs, r.chunk = some rcs ∧
      rcs.length = (o.chunk.getD []).length ∧
      (∀ c ∈ rcs, c.text.trim ≠ "") ∧
      ¬ ((rcs.filter (fun c => !(c.text.trim == ""))).length = 1 ∧
          rcs.length > 1) ∧
      specCoherent rcs (r.text.getD "")
  else r.chunk = Option.none)

/-- The whole-response validation contract as the spec words it (section
4.5, state `Validate`, item (a) plus the per-line items): the top-level
array exists, its length equals the structured-line count, and every line
satisfies the per-line contract at its position. -/
def specValidationContract (input : List SLine) (resp : ParsedJson) : Prop :=
  ∃ arr, resp.romanized_lyrics = some arr ∧ arr.length = input.length ∧
    ∀ i o r, input[i]? = some o → arr[i]? = some r → specLineContract o r i

/-! ### Service layer data -/

/-- `cacheStrategy` configuration values (src/src/types.d.ts). -/
inductive CacheStrategy where
  | aggressive
  | moderate
  | off
deriving DecidableEq, Repr

/-- Modelled from the spec: `CONFIG.CACHE_EXPIRY` (src/constants.js is
absent from src/).  The spec gives a "strategy TTL table: `aggressive`,
`moderate`, `none`" without numeric values; representative
millisecond values are used and no theorem depends on them (`off` embeds
the `none` strategy, which never reads the table because `getFromDB`
returns first). -/
def CACHE_EXPIRY : CacheStrategy → Nat
  | .aggressive => 2592000000
  | .moderate => 604800000
  | .off => 0

/-- Whether a strategy name is a key of `CONFIG.CACHE_EXPIRY` (the
`settings.cacheStrategy in CONFIG.CACHE_EXPIRY` membership test of
src/unnamed/part_001 line 87); the two TTL-bearing strategies are keys. -/
def strategyKeyKnown : CacheStrategy → Bool
  | .aggressive => true
  | .moderate => true
  | .off => false

/-- The lyrics payload, abstracted to its line texts: the service layer
only ever asks whether it is empty. -/
structure LyricsData where
  data : List String
deriving DecidableEq, Repr

/-- Modelled from the spec: `Utilities.isEmptyLyrics`
(src/utils/utilities.js is absent from src/); the spec says a provider
result is accepted when it is a non-empty document and that empty base
lyrics fail. -/
def isEmptyLyrics (l : LyricsData) : Bool :=
  l.data.isEmpty

/-- `LyricsCacheEntry` (src/src/types.d.ts): `\x7b lyrics, version \x7d`.
Versions are fetch timestamps, embedded as `Nat`. -/
structure LyricsCacheEntry where
  lyrics : LyricsData
  version : Nat
deriving DecidableEq, Repr

/-- A record of the persistent lyrics cache (spec section 6: `\x7b key,
lyrics, version, timestamp, duration \x7d`). -/
structure LyricsDBRecord where
  key : String
  lyrics : LyricsData
  version : Nat
  timestamp : Nat
  duration : Option Nat := Option.none
deriving DecidableEq, Repr

/-- A record of the local lyrics store (spec section 6: `\x7b songId,
songInfo, lyrics, timestamp \x7d`). -/
structure SongInfo where
  title : Option String := Option.none
  artist : Option String := Option.none
  album : Option String := Option.none
  duration : Option Nat := Option.none
  songId : Option String := Option.none
deriving DecidableEq, Repr

structure LocalLyricsRecord where
  songId : String
  songInfo : SongInfo
  lyrics : LyricsData
  timestamp : Option Nat := Option.none
deriving DecidableEq, Repr

/-- Metadata stamped on a served cached translation
(`annotateCacheHit`). -/
structure TranslationMeta where
  cached : Bool := false
  cacheSource : Option String := Option.none
  lastServedAt : Option Nat := Option.none
deriving DecidableEq, Repr

/-- A translated lyrics document: payload plus optional translation
metadata. -/
structure TransLyrics where
  data : LyricsData
  translationMeta : Option TranslationMeta := Option.none
deriving DecidableEq, Repr

/-- `TranslationRecord` (spec section 3): `\x7b translatedLyrics,
originalVersion \x7d`. -/
structure TranslationRecord where
  translatedLyrics : TransLyrics
  originalVersion : Nat
deriving DecidableEq, Repr

/-- JS truthiness of an optional string: `undefined` and `""` are falsy. -/
def truthyStr : Option String → Bool
  | Option.none => false
  | Option.some s => !(s == "")

/-- Association-list lookup by key. -/
def lookupAssoc {β : Type} (l : List (String × β)) (k : String) : Option β :=
  match l.find? (fun p => p.1 == k) with
  | Option.some p => Option.some p.2
  | Option.none => Option.none

/-- Association-list upsert by key (`Map.set` / object-store `put`). -/
def setAssoc {β : Type} (l : List (String × β)) (k : String) (v : β) :
    List (String × β) :=
  if l.any (fun p => p.1 == k) then
    l.map (fun p => if p.1 == k then (k, v) else p)
  else l ++ [(k, v)]

/-- Association-list delete by key. -/
def eraseAssoc {β : Type} (l : List (String × β)) (k : String) :
    List (String × β) :=
  l.filter (fun p => !(p.1 == k))

deriving instance DecidableEq for Except

/-- The shared background state (`state` of src/storage/state.js plus the
three persistent stores of src/src/background/storage/database.js).  The
single memory cache of the source keys lyrics entries and translation
records in one map; those key sets are disjoint (translation keys carry
an action/language suffix), so they are modelled as two lists.  The
in-flight registries associate each pending key with the value its shared
promise settles with. -/
structure BgState where
  memLyrics : List (String × LyricsCacheEntry) := []
  lyricsDb : List LyricsDBRecord := []
  localDb : List LocalLyricsRecord := []
  ongoingLyrics : List (String × Except String LyricsCacheEntry) := []
  memTrans : List (String × TranslationRecord) := []
  transDb : List (String × TranslationRecord) := []
  ongoingTrans : List (String × Except String TransLyrics) := []
deriving DecidableEq, Repr

/-! ### LyricsService -/

/-- `LyricsService.validateSongInfo` (src/unnamed/part_001 lines 30-34):
`!songInfo || !songInfo.title || !songInfo.artist` throws. -/
def validateSongInfo (songInfo : Option SongInfo) : Option String :=
  match songInfo with
  | Option.none => Option.some "Song info must include title and artist"
  | Option.some s =>
    if !truthyStr s.title || !truthyStr s.artist then
      Option.some "Song info must include title and artist"
    else Option.none

/-- A JS template-literal fragment: `undefined` prints as the string
"undefined". -/
def jsTemplate (v : Option String) : String :=
  match v with
  | Option.some s => s
  | Option.none => "undefined"

/-- `LyricsService.createCacheKey` (src/unnamed/part_001 lines 22-27):
`` `$\x7btitle\x7d - $\x7bartist\x7d - $\x7balbum\x7d - $\x7bduration\x7d` ``
with `|| ''` defaults (note a `0` duration is falsy). -/
def createCacheKey (songInfo : SongInfo) : String :=
  let artist := songInfo.artist.getD ""
  let album := songInfo.album.getD ""
  let durationStr :=
    match songInfo.duration with
    | Option.some d => if d = 0 then "" else toString d
    | Option.none => ""
  jsTemplate songInfo.title ++ " - " ++ artist ++ " - " ++ album
    ++ " - " ++ durationStr

/-- Reading `songInfo.artist` inside `createCacheKey` when
`TranslationService.getOrFetch` is handed `null`/`undefined` raises a
`TypeError` before any validation runs. -/
def createCacheKeyChecked : Option SongInfo → Except String String
  | Option.none =>
    .error "TypeError: Cannot read properties of null (reading artist)"
  | Option.some s => .ok (createCacheKey s)

/-- `LyricsService.getFromDB` (src/unnamed/part_001 lines 75-99): the
`none` strategy never reads; otherwise look the key up, resolve the
strategy against the TTL table (falling back to `aggressive`), and
return the entry while fresh (`age < expirationTime`) or delete it.  The
age is an integer difference (a future `storedAt` is simply fresh). -/
def getFromDB (cacheStrategy : CacheStrategy) (db : List LyricsDBRecord)
    (key : String) (now : Nat) :
    Option LyricsCacheEntry × List LyricsDBRecord :=
  if cacheStrategy = .off then (Option.none, db)
  else
    match db.find? (fun r => r.key == key) with
    | Option.none => (Option.none, db)
    | Option.some result =>
      let strategy :=
        if strategyKeyKnown cacheStrategy then cacheStrategy
        else .aggressive
      let expirationTime := CACHE_EXPIRY strategy
      let age : Int := (now : Int) - (result.timestamp : Int)
      if age < (expirationTime : Int) then
        (Option.some ⟨result.lyrics, result.version⟩, db)
      else
        (Option.none, db.filter (fun r => !(r.key == key)))

/-- `LyricsService.checkLocalLyrics` (src/unnamed/part_001 lines
102-131): direct `songId` hit, else best-effort (title, artist) match.
`DataParser.parseKPoeFormat` is the identity on the abstracted payload;
the `timestamp || songId` version fallback is embedded as `getD 0`. -/
def checkLocalLyrics (si : SongInfo) (localDb : List LocalLyricsRecord) :
    Option LyricsCacheEntry :=
  let direct :=
    match si.songId with
    | Option.some sid =>
      localDb.find? (fun (r : LocalLyricsRecord) => r.songId == sid)
    | Option.none => Option.none
  match direct with
  | Option.some d => Option.some ⟨d.lyrics, d.timestamp.getD 0⟩
  | Option.none =>
    match localDb.find? (fun (r : LocalLyricsRecord) =>
        r.songInfo.title == si.title && r.songInfo.artist == si.artist) with
    | Option.some matched =>
      match localDb.find? (fun (r : LocalLyricsRecord) =>
          r.songId == matched.songId) with
      | Option.some fetched =>
        Option.some ⟨fetched.lyrics, fetched.timestamp.getD 0⟩
      | Option.none => Option.none
    | Option.none => Option.none

/-- The environment of one sequential `getOrFetch` call: the clock, the
configured strategy, and oracles for what the provider fallback chain and
the YouTube-subtitle fallback would produce. -/
structure FetchEnv where
  now : Nat
  cacheStrategy : CacheStrategy
  providerLyrics : Option LyricsData
  subtitleLyrics : Option LyricsData
deriving DecidableEq, Repr

/-- Result + state + number of provider-chain invocations of a
sequential service call. -/
structure FetchOut where
  result : Except String LyricsCacheEntry
  state : BgState
  providerCalls : Nat
deriving DecidableEq, Repr

/-- Sequential model of `LyricsService.fetchNewLyrics`
(src/unnamed/part_001 lines 139-189): one provider-chain invocation
(counted), the subtitle fallback, `No lyrics found from any provider` on
emptiness, else stamp `version = fetchedAt = now`, write the memory cache
and (unless the strategy is `none`) the persistent cache; the `finally`
always removes the in-flight key. -/
def fetchNewLyrics (env : FetchEnv) (songInfo : SongInfo) (cacheKey : String)
    (st : BgState) : FetchOut :=
  let fromProviders : Option LyricsData :=
    match env.providerLyrics with
    | Option.some l => if isEmptyLyrics l then Option.none else Option.some l
    | Option.none => Option.none
  let lyrics :=
    match fromProviders with
    | Option.some l => Option.some l
    | Option.none => env.subtitleLyrics
  match lyrics with
  | Option.none =>
    { result := .error "No lyrics found from any provider"
      state := { st with ongoingLyrics := eraseAssoc st.ongoingLyrics cacheKey }
      providerCalls := 1 }
  | Option.some l =>
    if isEmptyLyrics l then
      { result := .error "No lyrics found from any provider"
        state := { st with ongoingLyrics := eraseAssoc st.ongoingLyrics cacheKey }
        providerCalls := 1 }
    else
      let version := env.now
      let entry : LyricsCacheEntry := ⟨l, version⟩
      let st1 := { st with memLyrics := setAssoc st.memLyrics cacheKey entry }
      let st2 :=
        if env.cacheStrategy ≠ .off then
          { st1 with lyricsDb := st1.lyricsDb.filter (fun r => !(r.key == cacheKey))
              ++ [⟨cacheKey, l, version, env.now, songInfo.duration⟩] }
        else st1
      { result := .ok entry
        state := { st2 with ongoingLyrics := eraseAssoc st2.ongoingLyrics cacheKey }
        providerCalls := 1 }

/-- What a `getOrFetch` call resolves to: a cache/fetch entry, or the
value of a joined in-flight promise. -/
inductive FetchResult where
  | entry (e : LyricsCacheEntry)
  | joined (e : LyricsCacheEntry)
deriving DecidableEq, Repr

structure GetOut where
  result : Except String FetchResult
  state : BgState
  providerCalls : Nat
deriving DecidableEq, Repr

/-- Sequential model of `LyricsService.getOrFetch` (src/unnamed/part_001
lines 41-72): validation first, then (without `forceReload`) memory
cache, TTL-checked persistent cache, local store, then the in-flight
registry (joining yields the pending promise's settled value), else a
fresh fetch. -/
def getOrFetch (env : FetchEnv) (songInfo : Option SongInfo)
    (forceReload : Bool) (st : BgState) : GetOut :=
  match validateSongInfo songInfo with
  | Option.some msg => { result := .error msg, state := st, providerCalls := 0 }
  | Option.none =>
    let si := songInfo.getD
      ⟨Option.none, Option.none, Option.none, Option.none, Option.none⟩
    let cacheKey := createCacheKey si
    let inflight : BgState → GetOut := fun st1 =>
      match lookupAssoc st1.ongoingLyrics cacheKey with
      | Option.some pending =>
        match pending with
        | .ok e => { result := .ok (.joined e), state := st1, providerCalls := 0 }
        | .error msg => { result := .error msg, state := st1, providerCalls := 0 }
      | Option.none =>
        let out := fetchNewLyrics env si cacheKey st1
        { result := out.result.map .entry
          state := out.state
          providerCalls := out.providerCalls }
    if forceReload then inflight st
    else
      match lookupAssoc st.memLyrics cacheKey with
      | Option.some e => { result := .ok (.entry e), state := st, providerCalls := 0 }
      | Option.none =>
        let dbr := getFromDB env.cacheStrategy st.lyricsDb cacheKey env.now
        let st1 := { st with lyricsDb := dbr.2 }
        match dbr.1 with
        | Option.some e =>
          { result := .ok (.entry e)
            state := { st1 with memLyrics := setAssoc st1.memLyrics cacheKey e }
            providerCalls := 0 }
        | Option.none =>
          match checkLocalLyrics si st1.localDb with
          | Option.some e =>
            { result := .ok (.entry e)
              state := { st1 with memLyrics := setAssoc st1.memLyrics cacheKey e }
              providerCalls := 0 }
          | Option.none => inflight st1

/-! ### TranslationService -/

/-- `TranslationService.annotateCacheHit` (src/unnamed/part_002 lines
60-68). -/
def annotateCacheHit (translatedLyrics : TransLyrics) (cacheSource : String)
    (now : Nat) : TransLyrics :=
  let meta := translatedLyrics.translationMeta.getD
    ⟨false, Option.none, Option.none⟩
  let served := { meta with
    cached := true
    cacheSource := Option.some cacheSource
    lastServedAt := Option.some now }
  { translatedLyrics with translationMeta := Option.some served }

/-- The persistent-cache half of `TranslationService.getCached`
(src/unnamed/part_002 lines 188-199): a matching record is promoted to
the memory cache and served; a version mismatch deletes the record and
misses. -/
def getCachedDb (key : String) (originalVersion : Nat) (now : Nat)
    (st : BgState) : Option TransLyrics × BgState :=
  match lookupAssoc st.transDb key with
  | Option.some dbCached =>
    if dbCached.originalVersion = originalVersion then
      (Option.some (annotateCacheHit dbCached.translatedLyrics "db" now),
       { st with memTrans := setAssoc st.memTrans key dbCached })
    else
      (Option.none, { st with transDb := eraseAssoc st.transDb key })
  | Option.none => (Option.none, st)

/-- `TranslationService.getCached` (src/unnamed/part_002 lines 179-202):
a memory record is served only on a version match; on a mismatch the
lookup falls through to the persistent cache *without deleting the memory
record*, and only a mismatching persistent record is purged. -/
def getCached (key : String) (originalVersion : Nat) (now : Nat)
    (st : BgState) : Option TransLyrics × BgState :=
  match lookupAssoc st.memTrans key with
  | Option.some cached =>
    if cached.originalVersion = originalVersion then
      (Option.some (annotateCacheHit cached.translatedLyrics "memory" now), st)
    else getCachedDb key originalVersion now st
  | Option.none => getCachedDb key originalVersion now st

/-- Sequential model of `TranslationService.getOrFetch`
(src/unnamed/part_002 lines 87-121): the composite key is built *first*
(reading a field of `songInfo`, hence a `TypeError` on `null`), then base
lyrics are resolved (propagating failures), empty base lyrics fail, then
translation cache, in-flight registry, and the transformation itself —
abstracted here as the `translated` oracle, which `performAndCache-`
`Translation` would cache under the composite key with the base version. -/
def translationGetOrFetch (env : FetchEnv) (translated : TransLyrics)
    (songInfo : Option SongInfo) (action : String) (targetLang : String)
    (forceReload : Bool) (st : BgState) :
    Except String TransLyrics × BgState × Nat :=
  match createCacheKeyChecked songInfo with
  | .error e => (.error e, st, 0)
  | .ok baseKey =>
    let translatedKey := baseKey ++ " - " ++ action ++ " - " ++ targetLang
    let g := getOrFetch env songInfo forceReload st
    match g.result with
    | .error e => (.error e, g.state, g.providerCalls)
    | .ok r =>
      let entry := match r with | .entry e => e | .joined e => e
      if isEmptyLyrics entry.lyrics then
        (.error "Original lyrics not found or empty", g.state, g.providerCalls)
      else
        let afterCache :=
          if forceReload then (Option.none, g.state)
          else getCached translatedKey entry.version env.now g.state
        match afterCache.1 with
        | Option.some hit => (.ok hit, afterCache.2, g.providerCalls)
        | Option.none =>
          let st1 := afterCache.2
          match
            (if forceReload then Option.none
             else lookupAssoc st1.ongoingTrans translatedKey) with
          | Option.some pending => (pending, st1, g.providerCalls)
          | Option.none =>
            let record : TranslationRecord := ⟨translated, entry.version⟩
            let st2 :=
              { st1 with
                memTrans := setAssoc st1.memTrans translatedKey record
                transDb := setAssoc st1.transDb translatedKey record }
            (.ok translated, st2, g.providerCalls)

/-! ### Two concurrent getOrFetch calls, as an interleaving machine

The cooperative (single-threaded, suspend-at-await) execution of two
concurrent `LyricsService.getOrFetch` calls for the same song, starting
from empty caches, is embedded as a small state machine.  Each program
counter value is one atomic segment between awaits of
src/unnamed/part_001:

* `start`      — validation and the synchronous memory-cache check
                 (lines 42-48);
* `dbCheck`    — resuming from `await getFromDB` with the persistent
                 result, promoting a hit to the memory cache (lines
                 50-55; entries written during the scenario are fresh, so
                 the TTL test passes);
* `localCheck` — `await checkLocalLyrics` over an empty local store
                 (lines 57-62);
* `regCheck`   — the registry check, and on a miss the start of
                 `fetchNewLyrics` plus `setOngoingFetch`, which share one
                 atomic segment because `fetchNewLyrics` suspends at its
                 first await before touching shared state (lines 64-71);
* `fetchCall`  — the settings read plus the whole provider fallback
                 chain, counted as one provider-chain invocation (lines
                 141-161), with a per-fetch success oracle;
* `fetchAfterOk`  — `state.setCached` after a successful chain (line 172);
* `fetchDbSet`    — `await lyricsDB.set` (lines 174-182);
* `fetchSettle`   — the `finally` removing the in-flight entry and the
                 promise resolving (lines 184-188);
* `fetchAfterErr` — the throw path: the same `finally`, rejecting;
* `waitJoin`   — a joined caller awaiting the shared promise.

A fetch's version token is its fetch ordinal (the source stamps
`Date.now ()`; distinct fetches get distinct tokens). -/

inductive TPC where
  | start
  | dbCheck
  | localCheck
  | regCheck
  | waitJoin
  | fetchCall
  | fetchAfterOk
  | fetchAfterErr
  | fetchDbSet
  | fetchSettle
  | taskDone
deriving DecidableEq, Repr

/-- One caller: program counter, its resolved value (`none` while
running), and a ghost flag marking whether it started a fetch. -/
structure TaskState where
  pc : TPC
  res : Option (Except Unit Nat) := Option.none
  started : Bool := false
deriving DecidableEq, Repr

/-- The shared state: single-key memory cache and persistent cache (the
stored version token), the in-flight registry bit, the settled value of
the current fetch promise, and instrumentation counters. -/
structure SharedSt where
  mem : Option Nat := Option.none
  db : Option Nat := Option.none
  ongoing : Bool := false
  resolved : Option (Except Unit Nat) := Option.none
  fetchStarts : Nat := 0
  providerCalls : Nat := 0
  deleteCount : Nat := 0
deriving DecidableEq, Repr

/-- One atomic segment of one caller (oracle `ok1`/`ok2`: whether the
provider chain of the first/second fetch succeeds). -/
def taskStep (ok1 ok2 : Bool) (t : TaskState) (s : SharedSt) :
    TaskState × SharedSt :=
  match t.pc with
  | .start =>
    match s.mem with
    | Option.some v => ({ t with pc := .taskDone, res := Option.some (.ok v) }, s)
    | Option.none => ({ t with pc := .dbCheck }, s)
  | .dbCheck =>
    match s.db with
    | Option.some v =>
      ({ t with pc := .taskDone, res := Option.some (.ok v) },
       { s with mem := Option.some v })
    | Option.none => ({ t with pc := .localCheck }, s)
  | .localCheck => ({ t with pc := .regCheck }, s)
  | .regCheck =>
    if s.ongoing then ({ t with pc := .waitJoin }, s)
    else
      ({ t with pc := .fetchCall, started := true },
       { s with ongoing := true, resolved := Option.none,
                fetchStarts := s.fetchStarts + 1 })
  | .fetchCall =>
    let ok := if s.fetchStarts = 1 then ok1 else ok2
    ({ t with pc := if ok then .fetchAfterOk else .fetchAfterErr },
     { s with providerCalls := s.providerCalls + 1 })
  | .fetchAfterOk =>
    ({ t with pc := .fetchDbSet }, { s with mem := Option.some s.fetchStarts })
  | .fetchDbSet =>
    ({ t with pc := .fetchSettle }, { s with db := Option.some s.fetchStarts })
  | .fetchSettle =>
    ({ t with pc := .taskDone, res := Option.some (.ok s.fetchStarts) },
     { s with ongoing := false, deleteCount := s.deleteCount + 1,
              resolved := Option.some (.ok s.fetchStarts) })
  | .fetchAfterErr =>
    ({ t with pc := .taskDone, res := Option.some (.error ()) },
     { s with ongoing := false, deleteCount := s.deleteCount + 1,
              resolved := Option.some (.error ()) })
  | .waitJoin =>
    match s.resolved with
    | Option.some r => ({ t with pc := .taskDone, res := Option.some r }, s)
    | Option.none => (t, s)
  | .taskDone => (t, s)

/-- The whole configuration: caller A, caller B, shared state. -/
structure C2Config where
  taskA : TaskState
  taskB : TaskState
  shared : SharedSt
deriving DecidableEq, Repr

/-- Scheduler step: `true` runs caller A, `false` runs caller B. -/
def stepSched (ok1 ok2 : Bool) (c : C2Config) (b : Bool) : C2Config :=
  if b then
    let r := taskStep ok1 ok2 c.taskA c.shared
    { taskA := r.1, taskB := c.taskB, shared := r.2 }
  else
    let r := taskStep ok1 ok2 c.taskB c.shared
    { taskA := c.taskA, taskB := r.1, shared := r.2 }

/-- Run a schedule (a list of scheduler choices). -/
def runSched (ok1 ok2 : Bool) : List Bool → C2Config → C2Config
  | [], c => c
  | b :: rest, c => runSched ok1 ok2 rest (stepSched ok1 ok2 c b)

/-- Both callers at the start, caches empty, registry empty. -/
def initC2 : C2Config :=
  { taskA := { pc := .start }, taskB := { pc := .start }, shared := {} }

/-- Whether a program counter lies inside `fetchNewLyrics`. -/
def inFetch : TPC → Bool
  | .fetchCall => true
  | .fetchAfterOk => true
  | .fetchAfterErr => true
  | .fetchDbSet => true
  | .fetchSettle => true
  | _ => false

/-- Whether a program counter lies before the registry check. -/
def preFetch : TPC → Bool
  | .start => true
  | .dbCheck => true
  | .localCheck => true
  | .regCheck => true
  | _ => false

/-- Whether a program counter lies on the success path of a fetch, after
the provider chain returned. -/
def fetchOkPath : TPC → Bool
  | .fetchAfterOk => true
  | .fetchDbSet => true
  | .fetchSettle => true
  | _ => false

/-- `1` for `true`, `0` for `false`. -/
def bc (b : Bool) : Nat := if b then 1 else 0

/-- The settled value of the first fetch, given its oracle. -/
def r1Of (ok1 : Bool) : Except Unit Nat :=
  if ok1 then .ok 1 else .error ()

/-- Inductive invariant of the two-caller machine. -/
def C2Inv (ok1 : Bool) (tA tB : TaskState) (s : SharedSt) : Prop :=
  s.fetchStarts = bc tA.started + bc tB.started ∧
  s.fetchStarts = s.deleteCount + bc (inFetch tA.pc) + bc (inFetch tB.pc) ∧
  s.fetchStarts = s.providerCalls
    + bc (tA.pc = .fetchCall) + bc (tB.pc = .fetchCall) ∧
  s.ongoing = (inFetch tA.pc || inFetch tB.pc) ∧
  ¬(inFetch tA.pc = true ∧ inFetch tB.pc = true) ∧
  (inFetch tA.pc = true → tA.started = true) ∧
  (inFetch tB.pc = true → tB.started = true) ∧
  (preFetch tA.pc = true → tA.started = false) ∧
  (preFetch tB.pc = true → tB.started = false) ∧
  (s.fetchStarts ≤ 1 →
    (s.mem = Option.none ∨
      (ok1 = true ∧ s.fetchStarts = 1 ∧ s.mem = Option.some 1))) ∧
  (s.fetchStarts ≤ 1 →
    (s.db = Option.none ∨
      (ok1 = true ∧ s.fetchStarts = 1 ∧ s.db = Option.some 1))) ∧
  (s.fetchStarts ≤ 1 →
    (s.resolved = Option.none ∨
      (s.fetchStarts = 1 ∧ s.resolved = Option.some (r1Of ok1)))) ∧
  (s.fetchStarts ≤ 1 →
    (tA.res = Option.none ∨
      (s.fetchStarts = 1 ∧ tA.res = Option.some (r1Of ok1)))) ∧
  (s.fetchStarts ≤ 1 →
    (tB.res = Option.none ∨
      (s.fetchStarts = 1 ∧ tB.res = Option.some (r1Of ok1)))) ∧
  (s.fetchStarts = 1 → fetchOkPath tA.pc = true → ok1 = true) ∧
  (s.fetchStarts = 1 → fetchOkPath tB.pc = true → ok1 = true) ∧
  (s.fetchStarts = 1 → tA.pc = .fetchAfterErr → ok1 = false) ∧
  (s.fetchStarts = 1 → tB.pc = .fetchAfterErr → ok1 = false) ∧
  (tA.pc = .taskDone → tA.res.isSome = true) ∧
  (tB.pc = .taskDone → tB.res.isSome = true)

/-! ### Concrete values used in closed statements -/

/-- A translated document used by the closed statements. -/
def exTransLyrics : TransLyrics := { data := ⟨["linia"]⟩ }

/-- A state whose memory translation cache holds a record with
`originalVersion = 1` under key `"k"`. -/
def c3StaleState : BgState := { memTrans := [("k", ⟨exTransLyrics, 1⟩)] }

/-- A songInfo with an empty (falsy) title. -/
def exBadSongInfo : SongInfo :=
  { title := Option.some "", artist := Option.some "x" }

/-- A fetch environment for closed statements. -/
def exEnv : FetchEnv :=
  { now := 0, cacheStrategy := .aggressive,
    providerLyrics := Option.none, subtitleLyrics := Option.none }

/-- A persistent lyrics-cache record stored at time 0 under key `"k"`. -/
def exDbRecord : LyricsDBRecord :=
  { key := "k", lyrics := ⟨["l"]⟩, version := 7, timestamp := 0,
    duration := Option.none }

/-- A one-line non-Latin API input. -/
def exApiLine : SLine := { text := "あ", original_line_index := Option.some 0 }

/-- The four-line dedup example of the spec: (1-based) lines 2 and 4
coincide. -/
def dedupExampleInput : List SLine :=
  [{ text := "あ" }, { text := "い" }, { text := "う" }, { text := "い" }]

/-- A three-slot transformer result for the dedup example. -/
def dedupExampleRomanized : List RLine :=
  [{ text := Option.some "a", original_line_index := Option.some 0 },
   { text := Option.some "i", original_line_index := Option.some 1 },
   { text := Option.some "u", original_line_index := Option.some 2 }]

/-- An all-Latin input whose single line carries syllable chunks. -/
def latinChunkedInput : List SLine :=
  [{ text := "la la", chunk := Option.some [⟨"la "⟩, ⟨"la"⟩] }]

/-- An API-outcome oracle that always fails (never consulted in the
short-circuit statements). -/
def failingApi : Nat → ApiOutcome := fun _ => .failed "network"

/-- A parsed response with neither top-level key. -/
def emptyParsed : ParsedJson := {}

/-- A two-line valid-shaped response array. -/
def exArrTwo : List RLine :=
  [⟨Option.some "a", Option.some 0, Option.none⟩,
   ⟨Option.some "b", Option.some 1, Option.none⟩]

/-- A stored response holding `exArrTwo`. -/
def exRespTwo : ParsedJson := ⟨Option.some exArrTwo, Option.none⟩

/-- A fixed line declaring index 1. -/
def exFixLine : RLine := ⟨Option.some "bee", Option.some 1, Option.none⟩

/-- The first error a missing top-level array produces. -/
def c5Err : String :=
  "The top-level romanized_lyrics key is missing or not an array"

/-- The loop state after one failing attempt on `[exApiLine]` with
`emptyParsed`. -/
def c5St1 : RomState :=
  { contents := [.userInitial, .modelResponse emptyParsed,
      .userCorrection (.fullRetry [exApiLine])]
    lastValidResponse := Option.some emptyParsed
    sameErrorCount := 1
    lastError := Option.some c5Err }

/-- The loop state after two identically failing attempts. -/
def c5St2 : RomState :=
  { contents := [.userInitial, .modelResponse emptyParsed,
      .userCorrection (.fullRetry [exApiLine]), .modelResponse emptyParsed,
      .userCorrection (.fullRetry [exApiLine])]
    lastValidResponse := Option.some emptyParsed
    sameErrorCount := 2
    lastError := Option.some c5Err }

/-- A well-formed one-line response for `[exApiLine]`. -/
def c4GoodResp : ParsedJson :=
  ⟨Option.some [⟨Option.some "a", Option.some 0, Option.none⟩], Option.none⟩

/-- A two-line API input. -/
def exTwoApiLines : List SLine :=
  [{ text := "あ", original_line_index := Option.some 0 },
   { text := "い", original_line_index := Option.some 1 }]

/-- The interleaving of two concurrent calls in which the second caller
passes its cache checks before the first fetch writes, but reaches its
registry check only after the first fetch has settled: both callers run
a full fetch. -/
def c2RaceSchedule : List Bool :=
  [true, false, true, false, false, true, true, true, true, true, true,
   false, false, false, false, false]

/-- The interleaving in which the second caller reaches the registry
check while the first fetch is pending and joins it. -/
def c2JoinSchedule : List Bool :=
  [true, true, true, true, true, false, false, false, false, true, true,
   true, false]

/-! ### Plan shape lemmas -/

theorem prepareLyricsAux_plan_origIdx :
    ∀ (rest : List SLine) (i : Nat)
      (m : List ((String × Option (List Chunk)) × Nat)) (cnt : Nat),
      ((prepareLyricsAux rest i m cnt).2).map PlanItem.origIdx
        = List.range' i rest.length
  | [], _, _, _ => by simp [prepareLyricsAux]
  | line :: rest, i, m, cnt => by
    rw [List.length_cons, List.range'_succ]
    by_cases hl : isPurelyLatinScript line.text
    · simp only [prepareLyricsAux, hl, if_pos]
      simp [PlanItem.origIdx, prepareLyricsAux_plan_origIdx rest (i + 1) m cnt]
    · simp only [prepareLyricsAux, hl, if_neg, Bool.false_eq_true,
        not_false_iff]
      cases hm : m.lookup (contentKeyOf line) with
      | some apiIndex =>
        simp [hm, PlanItem.origIdx,
          prepareLyricsAux_plan_origIdx rest (i + 1) m cnt]
      | none =>
        simp [hm, PlanItem.origIdx, prepareLyricsAux_plan_origIdx rest (i + 1)
          ((contentKeyOf line, cnt) :: m) (cnt + 1)]

theorem prepareLyrics_plan_origIdx (input : List SLine) :
    ((prepareLyrics input).2).map PlanItem.origIdx = List.range input.length := by
  rw [prepareLyrics, prepareLyricsAux_plan_origIdx, List.range_eq_range']

theorem prepareLyrics_plan_length (input : List SLine) :
    (prepareLyrics input).2.length = input.length := by
  have h := prepareLyrics_plan_origIdx input
  have := congrArg List.length h
  simpa using this

/-! ### Reconstruction lemmas -/

theorem setSparse_at_length (l : List (Option RLine)) (v : RLine) :
    setSparse l l.length v = l ++ [some v] := by
  simp [setSparse]

theorem reconstructLine_origIdx (romanized : List RLine) (hac : Bool)
    (p : PlanItem) :
    (reconstructLine romanized hac p).original_line_index
      = some (p.origIdx : Int) := by
  cases p with
  | latin data i => rfl
  | api a i =>
    simp only [reconstructLine, PlanItem.origIdx]
    cases romanized.get? a <;> rfl

theorem reconstruct_foldl_eq (romanized : List RLine) (hac : Bool) :
    ∀ (plan : List PlanItem) (l : List (Option RLine)),
      plan.map PlanItem.origIdx = List.range' l.length plan.length →
      plan.foldl
        (fun fullList planItem => setSparse fullList planItem.origIdx
          (reconstructLine romanized hac planItem)) l
      = l ++ plan.map (fun p => some (reconstructLine romanized hac p))
  | [], l, _ => by simp
  | p :: plan, l, h => by
    rw [List.length_cons, List.range'_succ, List.map_cons,
      List.cons_eq_cons] at h
    obtain ⟨h0, hrest⟩ := h
    rw [List.foldl_cons, h0, setSparse_at_length]
    have hlen : (l ++ [some (reconstructLine romanized hac p)]).length
        = l.length + 1 := by simp
    rw [reconstruct_foldl_eq romanized hac plan
      (l ++ [some (reconstructLine romanized hac p)]) (by rw [hlen]; exact hrest)]
    simp

theorem reconstructLyrics_eq_map (romanized : List RLine) (hac : Bool)
    (plan : List PlanItem)
    (h : plan.map PlanItem.origIdx = List.range plan.length) :
    reconstructLyrics romanized plan hac
      = plan.map (fun p => some (reconstructLine romanized hac p)) := by
  rw [reconstructLyrics, reconstruct_foldl_eq romanized hac plan []
    (by simpa [List.range_eq_range'] using h)]
  simp

/-- C1: for every input with `N` lines, the reconstruction plan built by
`prepareLyrics` has length `N` and its original indices are exactly
`0..N-1`, each exactly once and in order; and for every transformer
result list, `reconstructLyrics` over that plan emits exactly `N` lines,
the line at position `i` being present and tagged with original index
`i`. -/
theorem round_trip_reconstruction (input : List SLine)
    (romanized : List RLine) (hac : Bool) :
    (prepareLyrics input).2.length = input.length ∧
    ((prepareLyrics input).2).map PlanItem.origIdx
      = List.range input.length ∧
    (reconstructLyrics romanized (prepareLyrics input).2 hac).length
      = input.length ∧
    ∀ i, i < input.length →
      ∃ line,
        (reconstructLyrics romanized (prepareLyrics input).2 hac)[i]?
          = some (some line) ∧
        line.original_line_index = some (i : Int) := by
  have hplanlen := prepareLyrics_plan_length input
  have hidx := prepareLyrics_plan_origIdx input
  have hmap : (prepareLyrics input).2.map PlanItem.origIdx
      = List.range (prepareLyrics input).2.length := by
    rw [hplanlen]; exact hidx
  have hrec := reconstructLyrics_eq_map romanized hac _ hmap
  refine ⟨hplanlen, hidx, ?_, ?_⟩
  · rw [hrec]; simp [hplanlen]
  · intro i hi
    have hi' : i < (prepareLyrics input).2.length := by
      rw [hplanlen]; exact hi
    refine ⟨reconstructLine romanized hac ((prepareLyrics input).2.get ⟨i, hi'⟩),
      ?_, ?_⟩
    · rw [hrec, List.getElem?_map, List.getElem?_eq_getElem hi']
      rfl
    · rw [reconstructLine_origIdx]
      have : ((prepareLyrics input).2.map PlanItem.origIdx)[i]?
          = (List.range input.length)[i]? := by rw [hidx]
      rw [List.getElem?_map, List.getElem?_eq_getElem hi',
        List.getElem?_range hi] at this
      simp only [Option.map_some'] at this
      rw [Option.some_inj] at this
      rw [List.get_eq_getElem, this]

/-- Closed instance of `round_trip_reconstruction`: a mixed
Latin/duplicate/API input of four lines. -/
theorem round_trip_reconstruction_witness :
    (2 : Nat) < 4 ∧
    ∃ line,
      (reconstructLyrics [⟨some "a", some 0, none⟩]
        (prepareLyrics [⟨"hello", none, none⟩, ⟨"あ", none, none⟩,
          ⟨"い", none, none⟩, ⟨"あ", none, none⟩]).2 false)[2]?
        = some (some line) ∧
      line.original_line_index = some (2 : Int) := by
  refine ⟨by decide, ?_⟩
  exact (round_trip_reconstruction
    [⟨"hello", none, none⟩, ⟨"あ", none, none⟩,
      ⟨"い", none, none⟩, ⟨"あ", none, none⟩]
    [⟨some "a", some 0, none⟩] false).2.2.2 2 (by decide)

/-! ### Dedup lemmas -/

theorem prepareLyricsAux_cons_latin (line : SLine) (rest : List SLine)
    (i : Nat) (m : List ((String × Option (List Chunk)) × Nat)) (cnt : Nat)
    (h : isPurelyLatinScript line.text = true) :
    prepareLyricsAux (line :: rest) i m cnt
      = ((prepareLyricsAux rest (i + 1) m cnt).1,
         .latin line i :: (prepareLyricsAux rest (i + 1) m cnt).2) := by
  simp only [prepareLyricsAux]
  rw [if_pos h]

theorem prepareLyricsAux_cons_hit (line : SLine) (rest : List SLine)
    (i : Nat) (m : List ((String × Option (List Chunk)) × Nat)) (cnt : Nat)
    (a : Nat) (h : isPurelyLatinScript line.text = false)
    (hm : m.lookup (contentKeyOf line) = some a) :
    prepareLyricsAux (line :: rest) i m cnt
      = ((prepareLyricsAux rest (i + 1) m cnt).1,
         .api a i :: (prepareLyricsAux rest (i + 1) m cnt).2) := by
  simp only [prepareLyricsAux]
  rw [if_neg (by simp [h]), hm]

theorem prepareLyricsAux_cons_fresh (line : SLine) (rest : List SLine)
    (i : Nat) (m : List ((String × Option (List Chunk)) × Nat)) (cnt : Nat)
    (h : isPurelyLatinScript line.text = false)
    (hm : m.lookup (contentKeyOf line) = none) :
    prepareLyricsAux (line :: rest) i m cnt
      = (mkApiLine line cnt
          :: (prepareLyricsAux rest (i + 1)
              ((contentKeyOf line, cnt) :: m) (cnt + 1)).1,
         .api cnt i
          :: (prepareLyricsAux rest (i + 1)
              ((contentKeyOf line, cnt) :: m) (cnt + 1)).2) := by
  simp only [prepareLyricsAux]
  rw [if_neg (by simp [h]), hm]

theorem prepareLyricsAux_lookup_hit :
    ∀ (rest : List SLine) (i : Nat)
      (m : List ((String × Option (List Chunk)) × Nat)) (cnt : Nat)
      (k : String × Option (List Chunk)) (a : Nat),
      m.lookup k = some a →
      ∀ (p : Nat) (lp : SLine), rest[p]? = some lp →
        isPurelyLatinScript lp.text = false →
        contentKeyOf lp = k →
        (prepareLyricsAux rest i m cnt).2[p]? = some (.api a (i + p))
  | [], _, _, _, _, _, _, p, lp, hp, _, _ => by simp at hp
  | line :: rest, i, m, cnt, k, a, hm, p, lp, hp, hlat, hkey => by
    match p with
    | 0 =>
      rw [List.getElem?_cons_zero, Option.some_inj] at hp
      subst hp
      rw [prepareLyricsAux_cons_hit line rest i m cnt a hlat
        (by rw [hkey]; exact hm)]
      simp
    | p + 1 =>
      rw [List.getElem?_cons_succ] at hp
      have tail :
          (prepareLyricsAux rest (i + 1) m cnt).2[p]?
            = some (.api a (i + 1 + p)) :=
        prepareLyricsAux_lookup_hit rest (i + 1) m cnt k a hm p lp hp hlat hkey
      by_cases hl : isPurelyLatinScript line.text
      · rw [prepareLyricsAux_cons_latin line rest i m cnt hl,
          List.getElem?_cons_succ, tail]
        congr 2
        omega
      · rw [Bool.not_eq_true] at hl
        cases hmh : m.lookup (contentKeyOf line) with
        | some b =>
          rw [prepareLyricsAux_cons_hit line rest i m cnt b hl hmh,
            List.getElem?_cons_succ, tail]
          congr 2
          omega
        | none =>
          have hne : ¬ (k == contentKeyOf line) = true := by
            intro hcontra
            rw [eq_of_beq hcontra] at hm
            rw [hm] at hmh
            exact Option.noConfusion hmh
          have hm' : (((contentKeyOf line, cnt) :: m).lookup k) = some a := by
            rw [List.lookup_cons]
            simp only [hne, Bool.false_eq_true, if_neg, not_false_iff]
            exact hm
          have tail' :
              (prepareLyricsAux rest (i + 1)
                ((contentKeyOf line, cnt) :: m) (cnt + 1)).2[p]?
                = some (.api a (i + 1 + p)) :=
            prepareLyricsAux_lookup_hit rest (i + 1)
              ((contentKeyOf line, cnt) :: m) (cnt + 1) k a hm' p lp hp hlat hkey
          rw [prepareLyricsAux_cons_fresh line rest i m cnt hl hmh,
            List.getElem?_cons_succ, tail']
          congr 2
          omega

theorem prepareLyricsAux_dedup :
    ∀ (rest : List SLine) (i : Nat)
      (m : List ((String × Option (List Chunk)) × Nat)) (cnt : Nat)
      (p q : Nat) (lp lq : SLine),
      p < q →
      rest[p]? = some lp → rest[q]? = some lq →
      isPurelyLatinScript lp.text = false →
      isPurelyLatinScript lq.text = false →
      contentKeyOf lp = contentKeyOf lq →
      ∃ a, (prepareLyricsAux rest i m cnt).2[p]? = some (.api a (i + p)) ∧
           (prepareLyricsAux rest i m cnt).2[q]? = some (.api a (i + q))
  | [], _, _, _, p, _, _, _, _, hp, _, _, _, _ => by simp at hp
  | line :: rest, i, m, cnt, p, q, lp, lq, hpq, hp, hq, hlatp, hlatq, hkey => by
    match p, q with
    | _, 0 => omega
    | 0, q + 1 =>
      rw [List.getElem?_cons_zero, Option.some_inj] at hp
      subst hp
      rw [List.getElem?_cons_succ] at hq
      cases hmh : m.lookup (contentKeyOf line) with
      | some b =>
        have tail :
            (prepareLyricsAux rest (i + 1) m cnt).2[q]?
              = some (.api b (i + 1 + q)) :=
          prepareLyricsAux_lookup_hit rest (i + 1) m cnt
            (contentKeyOf line) b hmh q lq hq hlatq hkey.symm
        rw [prepareLyricsAux_cons_hit line rest i m cnt b hlatp hmh]
        refine ⟨b, by simp, ?_⟩
        rw [List.getElem?_cons_succ, tail]
        congr 2
        omega
      | none =>
        have hm' : (((contentKeyOf line, cnt) :: m).lookup (contentKeyOf line))
            = some cnt := by
          rw [List.lookup_cons]
          simp
        have tail :
            (prepareLyricsAux rest (i + 1)
              ((contentKeyOf line, cnt) :: m) (cnt + 1)).2[q]?
              = some (.api cnt (i + 1 + q)) :=
          prepareLyricsAux_lookup_hit rest (i + 1)
            ((contentKeyOf line, cnt) :: m) (cnt + 1) (contentKeyOf line) cnt
            hm' q lq hq hlatq hkey.symm
        rw [prepareLyricsAux_cons_fresh line rest i m cnt hlatp hmh]
        refine ⟨cnt, by simp, ?_⟩
        rw [List.getElem?_cons_succ, tail]
        congr 2
        omega
    | p + 1, q + 1 =>
      rw [List.getElem?_cons_succ] at hp hq
      have hpq' : p < q := by omega
      by_cases hl : isPurelyLatinScript line.text
      · obtain ⟨a, h1, h2⟩ := prepareLyricsAux_dedup rest (i + 1) m cnt p q
          lp lq hpq' hp hq hlatp hlatq hkey
        rw [prepareLyricsAux_cons_latin line rest i m cnt hl]
        refine ⟨a, ?_, ?_⟩
        · rw [List.getElem?_cons_succ, h1]; congr 2; omega
        · rw [List.getElem?_cons_succ, h2]; congr 2; omega
      · rw [Bool.not_eq_true] at hl
        cases hmh : m.lookup (contentKeyOf line) with
        | some b =>
          obtain ⟨a, h1, h2⟩ := prepareLyricsAux_dedup rest (i + 1) m cnt p q
            lp lq hpq' hp hq hlatp hlatq hkey
          rw [prepareLyricsAux_cons_hit line rest i m cnt b hl hmh]
          refine ⟨a, ?_, ?_⟩
          · rw [List.getElem?_cons_succ, h1]; congr 2; omega
          · rw [List.getElem?_cons_succ, h2]; congr 2; omega
        | none =>
          obtain ⟨a, h1, h2⟩ := prepareLyricsAux_dedup rest (i + 1)
            ((contentKeyOf line, cnt) :: m) (cnt + 1) p q lp lq hpq' hp hq
            hlatp hlatq hkey
          rw [prepareLyricsAux_cons_fresh line rest i m cnt hl hmh]
          refine ⟨a, ?_, ?_⟩
          · rw [List.getElem?_cons_succ, h1]; congr 2; omega
          · rw [List.getElem?_cons_succ, h2]; congr 2; omega

/-! ### C7: TTL boundary -/

/-- C7: with the TTL `T` of the configured (TTL-bearing) strategy, a
persistent cache entry whose age `now - storedAt` equals `T` is treated
as expired — it is not returned and is deleted from the store — while an
entry whose age is strictly below `T` is returned with its lyrics and
version, leaving the store unchanged. -/
theorem ttl_boundary (strat : CacheStrategy) (db : List LyricsDBRecord)
    (r : LyricsDBRecord) (key : String) (now : Nat)
    (hstrat : strat ≠ .off)
    (hfind : db.find? (fun rec => rec.key == key) = Option.some r) :
    (((now : Int) - (r.timestamp : Int) = (CACHE_EXPIRY strat : Int)) →
      (getFromDB strat db key now).1 = Option.none ∧
      (getFromDB strat db key now).2
        = db.filter (fun rec => !(rec.key == key))) ∧
    (((now : Int) - (r.timestamp : Int) < (CACHE_EXPIRY strat : Int)) →
      (getFromDB strat db key now).1 = Option.some ⟨r.lyrics, r.version⟩ ∧
      (getFromDB strat db key now).2 = db) := by
  have hknown : strategyKeyKnown strat = true := by
    cases strat <;> simp_all [strategyKeyKnown]
  have key1 : getFromDB strat db key now =
      (if (now : Int) - (r.timestamp : Int) < (CACHE_EXPIRY strat : Int)
       then (Option.some ⟨r.lyrics, r.version⟩, db)
       else (Option.none, db.filter (fun rec => !(rec.key == key)))) := by
    simp only [getFromDB, hfind, hknown]
    rw [if_neg hstrat]
    simp
  constructor
  · intro hage
    rw [key1, if_neg (by omega)]
    exact ⟨rfl, rfl⟩
  · intro hage
    rw [key1, if_pos hage]
    exact ⟨rfl, rfl⟩

/-- Closed instance of `ttl_boundary`: an `aggressive`-TTL-old entry is
expired and deleted. -/
theorem ttl_boundary_witness :
    (getFromDB .aggressive [exDbRecord] "k" 2592000000).1 = Option.none ∧
    (getFromDB .aggressive [exDbRecord] "k" 2592000000).2
      = List.filter (fun rec => !(rec.key == "k")) [exDbRecord] :=
  (ttl_boundary .aggressive [exDbRecord] exDbRecord "k" 2592000000
    (by decide) (by decide)).1 (by decide)

/-! ### C3: version invalidation -/

/-- Step equation: memory hit with matching version. -/
theorem getCached_mem_hit (key : String) (v now : Nat) (st : BgState)
    (c : TranslationRecord) (hm : lookupAssoc st.memTrans key = Option.some c)
    (hv : c.originalVersion = v) :
    getCached key v now st
      = (Option.some (annotateCacheHit c.translatedLyrics "memory" now), st) := by
  simp only [getCached, hm, hv, if_pos]

/-- Step equation: memory record with mismatching version falls through
to the persistent cache. -/
theorem getCached_mem_stale (key : String) (v now : Nat) (st : BgState)
    (c : TranslationRecord) (hm : lookupAssoc st.memTrans key = Option.some c)
    (hv : c.originalVersion ≠ v) :
    getCached key v now st = getCachedDb key v now st := by
  simp only [getCached, hm, hv, if_neg, if_false]

/-- Step equation: no memory record. -/
theorem getCached_mem_none (key : String) (v now : Nat) (st : BgState)
    (hm : lookupAssoc st.memTrans key = Option.none) :
    getCached key v now st = getCachedDb key v now st := by
  simp only [getCached, hm]

/-- Step equation: persistent hit with matching version. -/
theorem getCachedDb_hit (key : String) (v now : Nat) (st : BgState)
    (c : TranslationRecord) (hd : lookupAssoc st.transDb key = Option.some c)
    (hv : c.originalVersion = v) :
    getCachedDb key v now st
      = (Option.some (annotateCacheHit c.translatedLyrics "db" now),
         { st with memTrans := setAssoc st.memTrans key c }) := by
  simp only [getCachedDb, hd, hv, if_pos]

/-- Step equation: persistent record with mismatching version is purged. -/
theorem getCachedDb_stale (key : String) (v now : Nat) (st : BgState)
    (c : TranslationRecord) (hd : lookupAssoc st.transDb key = Option.some c)
    (hv : c.originalVersion ≠ v) :
    getCachedDb key v now st
      = (Option.none, { st with transDb := eraseAssoc st.transDb key }) := by
  simp only [getCachedDb, hd]
  rw [if_neg hv]

/-- Step equation: no persistent record. -/
theorem getCachedDb_none (key : String) (v now : Nat) (st : BgState)
    (hd : lookupAssoc st.transDb key = Option.none) :
    getCachedDb key v now st = (Option.none, st) := by
  simp only [getCachedDb, hd]

/-- C3 counterexample: a stale memory translation record (originalVersion
1 read against current version 2) is *not* purged by the read — the
lookup misses, but the record is still in the memory cache afterwards,
refuting "the stale record is purged on that read" for the memory tier. -/
theorem stale_memory_record_survives_read :
    (getCached "k" 2 100 c3StaleState).1 = Option.none ∧
    lookupAssoc (getCached "k" 2 100 c3StaleState).2.memTrans "k"
      = Option.some ⟨exTransLyrics, 1⟩ := by
  decide

/-- C3 (amended): a cached TranslationRecord whose `originalVersion`
differs from the current base version is never returned by
`TranslationService.getCached` — every hit stems from a record with the
current version; a mismatching *persistent* record is purged on that
read; a mismatching *memory* record is skipped but left in place. -/
theorem version_invalidation (key : String) (v now : Nat) (st : BgState) :
    (∀ tl, (getCached key v now st).1 = Option.some tl →
      ∃ rec src,
        (lookupAssoc st.memTrans key = Option.some rec ∨
          lookupAssoc st.transDb key = Option.some rec) ∧
        rec.originalVersion = v ∧
        tl = annotateCacheHit rec.translatedLyrics src now) ∧
    (∀ rec, lookupAssoc st.transDb key = Option.some rec →
      rec.originalVersion ≠ v →
      (∀ mrec, lookupAssoc st.memTrans key = Option.some mrec →
        mrec.originalVersion ≠ v) →
      (getCached key v now st).1 = Option.none ∧
      (getCached key v now st).2.transDb = eraseAssoc st.transDb key ∧
      (getCached key v now st).2.memTrans = st.memTrans) := by
  constructor
  · intro tl htl
    cases hm : lookupAssoc st.memTrans key with
    | some cached =>
      by_cases hv : cached.originalVersion = v
      · rw [getCached_mem_hit key v now st cached hm hv] at htl
        rw [Option.some_inj] at htl
        exact ⟨cached, "memory", Or.inl rfl, hv, htl.symm⟩
      · rw [getCached_mem_stale key v now st cached hm hv] at htl
        cases hd : lookupAssoc st.transDb key with
        | some dbc =>
          by_cases hv2 : dbc.originalVersion = v
          · rw [getCachedDb_hit key v now st dbc hd hv2] at htl
            rw [Option.some_inj] at htl
            exact ⟨dbc, "db", Or.inr rfl, hv2, htl.symm⟩
          · rw [getCachedDb_stale key v now st dbc hd hv2] at htl
            exact absurd htl (by simp)
        | none =>
          rw [getCachedDb_none key v now st hd] at htl
          exact absurd htl (by simp)
    | none =>
      rw [getCached_mem_none key v now st hm] at htl
      cases hd : lookupAssoc st.transDb key with
      | some dbc =>
        by_cases hv2 : dbc.originalVersion = v
        · rw [getCachedDb_hit key v now st dbc hd hv2] at htl
          rw [Option.some_inj] at htl
          exact ⟨dbc, "db", Or.inr rfl, hv2, htl.symm⟩
        · rw [getCachedDb_stale key v now st dbc hd hv2] at htl
          exact absurd htl (by simp)
      | none =>
        rw [getCachedDb_none key v now st hd] at htl
        exact absurd htl (by simp)
  · intro rec hd hv hmem
    have hdb :
        getCachedDb key v now st
          = (Option.none, { st with transDb := eraseAssoc st.transDb key }) :=
      getCachedDb_stale key v now st rec hd hv
    cases hm : lookupAssoc st.memTrans key with
    | some cached =>
      have hcv := hmem cached hm
      rw [getCached_mem_stale key v now st cached hm hcv, hdb]
      exact ⟨rfl, rfl, rfl⟩
    | none =>
      rw [getCached_mem_none key v now st hm, hdb]
      exact ⟨rfl, rfl, rfl⟩

/-- Closed instance of `version_invalidation`: the stale persistent
record of key `"k"` is purged and the lookup misses. -/
theorem version_invalidation_witness :
    (getCached "k" 2 100 { transDb := [("k", ⟨exTransLyrics, 1⟩)] }).1
      = Option.none ∧
    (getCached "k" 2 100 { transDb := [("k", ⟨exTransLyrics, 1⟩)] }).2.transDb
      = eraseAssoc [("k", ⟨exTransLyrics, 1⟩)] "k" := by
  have h := (version_invalidation "k" 2 100
    { transDb := [("k", ⟨exTransLyrics, 1⟩)] }).2 ⟨exTransLyrics, 1⟩
    (by decide) (by decide) (by intro mrec hm; simp [lookupAssoc] at hm)
  exact ⟨h.1, h.2.1⟩

/-! ### C10: song-info validation -/

/-- The only message `validateSongInfo` ever reports. -/
theorem validateSongInfo_msg (si : Option SongInfo) (msg : String)
    (h : validateSongInfo si = Option.some msg) :
    msg = "Song info must include title and artist" := by
  cases si with
  | none =>
    simp only [validateSongInfo, Option.some_inj] at h
    exact h.symm
  | some s =>
    simp only [validateSongInfo] at h
    by_cases hc : (!truthyStr s.title || !truthyStr s.artist) = true
    · rw [if_pos hc, Option.some_inj] at h
      exact h.symm
    · rw [if_neg hc] at h
      exact Option.noConfusion h

/-- Invalid song info makes `getOrFetch` fail with the validation
message, touching nothing. -/
theorem getOrFetch_invalid (env : FetchEnv) (songInfo : Option SongInfo)
    (forceReload : Bool) (st : BgState)
    (h : validateSongInfo songInfo ≠ Option.none) :
    getOrFetch env songInfo forceReload st
      = { result := .error "Song info must include title and artist",
          state := st, providerCalls := 0 } := by
  cases hv : validateSongInfo songInfo with
  | none => exact absurd hv h
  | some msg =>
    have hmsg := validateSongInfo_msg songInfo msg hv
    subst hmsg
    simp only [getOrFetch, hv]

/-- C10 (amended): a `null` songInfo or one without a truthy title or
artist makes `LyricsService.getOrFetch` throw `Song info must include
title and artist` before consulting any cache, registry or provider (no
state change, zero provider calls); `TranslationService.getOrFetch`
propagates the same error for an *object* songInfo, while a `null`
songInfo instead raises a `TypeError` inside its key construction. -/
theorem invalid_song_info_rejected :
    (∀ (env : FetchEnv) (songInfo : Option SongInfo) (forceReload : Bool)
        (st : BgState),
      validateSongInfo songInfo ≠ Option.none →
      getOrFetch env songInfo forceReload st
        = { result := .error "Song info must include title and artist",
            state := st, providerCalls := 0 }) ∧
    (∀ (env : FetchEnv) (translated : TransLyrics) (s : SongInfo)
        (action targetLang : String) (forceReload : Bool) (st : BgState),
      validateSongInfo (Option.some s) ≠ Option.none →
      translationGetOrFetch env translated (Option.some s) action targetLang
          forceReload st
        = (.error "Song info must include title and artist", st, 0)) := by
  constructor
  · exact fun env songInfo forceReload st h =>
      getOrFetch_invalid env songInfo forceReload st h
  · intro env translated s action targetLang forceReload st h
    simp only [translationGetOrFetch, createCacheKeyChecked,
      getOrFetch_invalid env (Option.some s) forceReload st h]

/-- Closed instance of `invalid_song_info_rejected`: an empty-title
songInfo is rejected with the exact message and an unchanged state. -/
theorem invalid_song_info_rejected_witness :
    getOrFetch exEnv (Option.some exBadSongInfo) false {}
      = { result := .error "Song info must include title and artist",
          state := {}, providerCalls := 0 } :=
  invalid_song_info_rejected.1 exEnv (Option.some exBadSongInfo)
    false {} (by decide)

/-- C10 counterexample: with a `null` songInfo,
`TranslationService.getOrFetch` fails inside `createCacheKey` with a
`TypeError`, not with `Song info must include title and artist` — so the
claim that it throws that message for null input is false. -/
theorem null_song_info_type_error :
    (translationGetOrFetch exEnv exTransLyrics Option.none "romanize" "en"
        false {}).1
      = .error "TypeError: Cannot read properties of null (reading artist)" ∧
    (Except.error "TypeError: Cannot read properties of null (reading artist)"
        : Except String TransLyrics)
      ≠ .error "Song info must include title and artist" := by
  decide

/-! ### C8: dedup correctness -/

/-- C8: any two non-Latin input lines with identical text and chunk
structure share one API slot — their plan entries carry the same
`apiIndex` — and after transformation the reconstructed lines at both
original indices carry identical romanized content (same text, same
chunks; only the re-stamped original index differs).  On the spec's
four-line example (lines 2 and 4 coincide, 1-based) the deduplicated
structured input has exactly 3 entries. -/
theorem dedup_shared_slot_identical_content :
    (∀ (input : List SLine) (romanized : List RLine) (hac : Bool)
        (i j : Nat) (li lj : SLine),
      i < j → input[i]? = Option.some li → input[j]? = Option.some lj →
      isPurelyLatinScript li.text = false →
      isPurelyLatinScript lj.text = false →
      contentKeyOf li = contentKeyOf lj →
      ∃ a oi oj,
        (prepareLyrics input).2[i]? = Option.some (.api a i) ∧
        (prepareLyrics input).2[j]? = Option.some (.api a j) ∧
        (reconstructLyrics romanized (prepareLyrics input).2 hac)[i]?
          = Option.some (Option.some oi) ∧
        (reconstructLyrics romanized (prepareLyrics input).2 hac)[j]?
          = Option.some (Option.some oj) ∧
        oi.text = oj.text ∧ oi.chunk = oj.chunk) ∧
    (prepareLyrics dedupExampleInput).1.length = 3 := by
  constructor
  · intro input romanized hac i j li lj hij hi hj hli hlj hkey
    obtain ⟨a, h1, h2⟩ :=
      prepareLyricsAux_dedup input 0 [] 0 i j li lj hij hi hj hli hlj hkey
    rw [Nat.zero_add] at h1 h2
    have h1' : (prepareLyrics input).2[i]? = Option.some (.api a i) := h1
    have h2' : (prepareLyrics input).2[j]? = Option.some (.api a j) := h2
    have hplanlen := prepareLyrics_plan_length input
    have hmap : (prepareLyrics input).2.map PlanItem.origIdx
        = List.range (prepareLyrics input).2.length := by
      rw [hplanlen]; exact prepareLyrics_plan_origIdx input
    have hrec := reconstructLyrics_eq_map romanized hac _ hmap
    refine ⟨a, reconstructLine romanized hac (.api a i),
      reconstructLine romanized hac (.api a j), h1', h2', ?_, ?_, ?_, ?_⟩
    · rw [hrec, List.getElem?_map, h1']
      rfl
    · rw [hrec, List.getElem?_map, h2']
      rfl
    · simp only [reconstructLine]
      cases romanized.get? a <;> rfl
    · simp only [reconstructLine]
      cases romanized.get? a <;> rfl
  · decide

/-- Closed instance of `dedup_shared_slot_identical_content` on the
four-line example: original indices 1 and 3 (the 1-based lines 2 and 4)
share a slot and receive identical content. -/
theorem dedup_shared_slot_identical_content_witness :
    (1 : Nat) < 3 ∧
    ∃ a oi oj,
      (prepareLyrics dedupExampleInput).2[1]? = Option.some (.api a 1) ∧
      (prepareLyrics dedupExampleInput).2[3]? = Option.some (.api a 3) ∧
      (reconstructLyrics dedupExampleRomanized
          (prepareLyrics dedupExampleInput).2 false)[1]?
        = Option.some (Option.some oi) ∧
      (reconstructLyrics dedupExampleRomanized
          (prepareLyrics dedupExampleInput).2 false)[3]?
        = Option.some (Option.some oj) ∧
      oi.text = oj.text ∧ oi.chunk = oj.chunk :=
  ⟨by decide,
   dedup_shared_slot_identical_content.1 dedupExampleInput
     dedupExampleRomanized false 1 3 ⟨"い", Option.none, Option.none⟩
     ⟨"い", Option.none, Option.none⟩ (by decide) (by decide) (by decide)
     (by decide) (by decide) (by decide)⟩

/-! ### C9: all-Latin short-circuit -/

/-- On an all-Latin suffix, `prepareLyricsAux` allocates no API line and
plans a passthrough at every position. -/
theorem prepareLyricsAux_all_latin :
    ∀ (rest : List SLine) (i : Nat)
      (m : List ((String × Option (List Chunk)) × Nat)) (cnt : Nat),
      (∀ l ∈ rest, isPurelyLatinScript l.text = true) →
      (prepareLyricsAux rest i m cnt).1 = [] ∧
      ∀ (p : Nat) (l : SLine), rest[p]? = Option.some l →
        (prepareLyricsAux rest i m cnt).2[p]? = Option.some (.latin l (i + p))
  | [], i, m, cnt, _ => by
    refine ⟨rfl, ?_⟩
    intro p l hp
    simp at hp
  | line :: rest, i, m, cnt, h => by
    have hline : isPurelyLatinScript line.text = true :=
      h line (List.mem_cons_self line rest)
    have hrest : ∀ l ∈ rest, isPurelyLatinScript l.text = true :=
      fun l hl => h l (List.mem_cons_of_mem line hl)
    have ih := prepareLyricsAux_all_latin rest (i + 1) m cnt hrest
    rw [prepareLyricsAux_cons_latin line rest i m cnt hline]
    refine ⟨ih.1, ?_⟩
    intro p l hp
    match p with
    | 0 =>
      rw [List.getElem?_cons_zero, Option.some_inj] at hp
      subst hp
      simp
    | p + 1 =>
      rw [List.getElem?_cons_succ] at hp
      rw [List.getElem?_cons_succ, ih.2 p l hp]
      congr 2
      omega

/-- C9 (amended): a document in which every line is purely Latin script
makes `romanize` perform zero transformer calls and return a document of
the same length and order in which every line keeps its original text,
gets its position stamped as `original_line_index`, and — because
`hasAnyChunks` is computed over the (empty) API-bound line set — loses
any chunk array it carried. -/
theorem all_latin_short_circuit (api : Nat → ApiOutcome)
    (input : List SLine)
    (h : ∀ l ∈ input, isPurelyLatinScript l.text = true) :
    (romanize api input).2 = 0 ∧
    ∃ out : List (Option RLine), (romanize api input).1 = .ok out ∧
      out.length = input.length ∧
      ∀ (p : Nat) (l : SLine), input[p]? = Option.some l →
        out[p]? = Option.some (Option.some
          (⟨Option.some l.text, Option.some (p : Int), Option.none⟩ : RLine)) := by
  have hprep := prepareLyricsAux_all_latin input 0 [] 0 h
  have hapi : (prepareLyrics input).1 = [] := hprep.1
  have hrom : romanize api input
      = (.ok (reconstructLyrics [] (prepareLyrics input).2
          (hasAnyChunksOf (prepareLyrics input).1)), 0) := by
    simp only [romanize, hapi]
    simp
  have hplanlen := prepareLyrics_plan_length input
  have hmap : (prepareLyrics input).2.map PlanItem.origIdx
      = List.range (prepareLyrics input).2.length := by
    rw [hplanlen]; exact prepareLyrics_plan_origIdx input
  have hrec := reconstructLyrics_eq_map [] (hasAnyChunksOf (prepareLyrics input).1)
    (prepareLyrics input).2 hmap
  have hhac : hasAnyChunksOf (prepareLyrics input).1 = false := by
    rw [hapi]; rfl
  refine ⟨by rw [hrom], ?_⟩
  refine ⟨reconstructLyrics [] (prepareLyrics input).2
    (hasAnyChunksOf (prepareLyrics input).1), by rw [hrom], ?_, ?_⟩
  · rw [hrec]
    simp [hplanlen]
  · intro p l hp
    have hplan : (prepareLyrics input).2[p]? = Option.some (.latin l p) := by
      have := hprep.2 p l hp
      rw [Nat.zero_add] at this
      exact this
    rw [hrec, List.getElem?_map, hplan]
    simp only [Option.map_some']
    rw [Option.some_inj, Option.some_inj]
    simp only [reconstructLine, hhac]
    rfl

/-- Closed instance of `all_latin_short_circuit`. -/
theorem all_latin_short_circuit_witness :
    (romanize failingApi [⟨"hello", Option.none, Option.none⟩]).2 = 0 ∧
    ∃ out : List (Option RLine),
      (romanize failingApi [⟨"hello", Option.none, Option.none⟩]).1
        = .ok out ∧
      out.length = [(⟨"hello", Option.none, Option.none⟩ : SLine)].length ∧
      ∀ (p : Nat) (l : SLine),
        [(⟨"hello", Option.none, Option.none⟩ : SLine)][p]? = Option.some l →
        out[p]? = Option.some (Option.some
          (⟨Option.some l.text, Option.some (p : Int), Option.none⟩ : RLine)) :=
  all_latin_short_circuit failingApi
    [⟨"hello", Option.none, Option.none⟩] (by decide)

/-- C9 counterexample: an all-Latin document whose single line carries a
chunk array is *not* returned unchanged — zero transformer calls happen,
but the emitted line has no chunk array although the input line had one. -/
theorem all_latin_chunk_dropped :
    (romanize failingApi latinChunkedInput).2 = 0 ∧
    (romanize failingApi latinChunkedInput).1
      = .ok [Option.some ⟨Option.some "la la", Option.some 0, Option.none⟩] ∧
    latinChunkedInput[0]?.map SLine.chunk
      = Option.some (Option.some [⟨"la "⟩, ⟨"la"⟩]) ∧
    (Option.some [(⟨"la "⟩ : Chunk), ⟨"la"⟩] : Option (List Chunk))
      ≠ Option.none := by
  refine ⟨?_, ?_, by decide, by decide⟩
  · decide
  · decide

/-! ### C6: selective fix -/

theorem applyFix_length (acc : List RLine) (f : RLine) :
    (applyFix acc f).length = acc.length := by
  cases hf : f.original_line_index with
  | none => simp [applyFix, hf]
  | some k =>
    simp only [applyFix, hf]
    split <;> simp

theorem foldl_applyFix_length :
    ∀ (fixed : List RLine) (acc : List RLine),
      (fixed.foldl applyFix acc).length = acc.length
  | [], _ => rfl
  | f :: fs, acc => by
    rw [List.foldl_cons, foldl_applyFix_length fs (applyFix acc f),
      applyFix_length]

theorem applyFix_getElem_ne (acc : List RLine) (f : RLine) (i : Nat)
    (h : f.original_line_index ≠ Option.some (i : Int)) :
    (applyFix acc f)[i]? = acc[i]? := by
  cases hf : f.original_line_index with
  | none => simp [applyFix, hf]
  | some k =>
    simp only [applyFix, hf]
    split
    · rename_i hk
      have hki : k ≠ (i : Int) := by
        intro hcontra
        exact h (by rw [hf, hcontra])
      have hne : k.toNat ≠ i := by omega
      rw [List.getElem?_set_ne hne]
    · rfl

theorem foldl_applyFix_getElem_ne :
    ∀ (fixed : List RLine) (acc : List RLine) (i : Nat),
      (∀ f ∈ fixed, f.original_line_index ≠ Option.some (i : Int)) →
      (fixed.foldl applyFix acc)[i]? = acc[i]?
  | [], _, _, _ => rfl
  | f :: fs, acc, i, h => by
    rw [List.foldl_cons,
      foldl_applyFix_getElem_ne fs (applyFix acc f) i
        (fun g hg => h g (List.mem_cons_of_mem f hg)),
      applyFix_getElem_ne acc f i (h f (List.mem_cons_self f fs))]

theorem applyFix_out_of_bounds (acc : List RLine) (f : RLine)
    (h : ∀ k : Int, f.original_line_index = Option.some k →
      k < 0 ∨ (acc.length : Int) ≤ k) :
    applyFix acc f = acc := by
  cases hf : f.original_line_index with
  | none => simp [applyFix, hf]
  | some k =>
    simp only [applyFix, hf]
    have := h k hf
    rw [if_neg (by omega)]

theorem foldl_applyFix_out_of_bounds :
    ∀ (fixed : List RLine) (acc : List RLine),
      (∀ f ∈ fixed, ∀ k : Int, f.original_line_index = Option.some k →
        k < 0 ∨ (acc.length : Int) ≤ k) →
      fixed.foldl applyFix acc = acc
  | [], _, _ => rfl
  | f :: fs, acc, h => by
    rw [List.foldl_cons,
      applyFix_out_of_bounds acc f (h f (List.mem_cons_self f fs)),
      foldl_applyFix_out_of_bounds fs acc
        (fun g hg => h g (List.mem_cons_of_mem f hg))]

/-- C6 (amended): whenever some lines are flagged and they number fewer
than 80% of the API lines, the correction request is a selective fix
scoped to exactly the flagged lines; merging fixed lines into a stored
full response touches only the declared indices — the array keeps its
length, every index no fixed line declares is unchanged, and fixes whose
declared index is missing or out of bounds are dropped without error. -/
theorem selective_fix_scoped_merge :
    (∀ (problematicLines lyricsForApi : List SLine),
      0 < problematicLines.length →
      5 * problematicLines.length < 4 * lyricsForApi.length →
      createCorrectionPrompt problematicLines lyricsForApi
        = .selective problematicLines) ∧
    (∀ (lv : ParsedJson) (arr fixed : List RLine),
      lv.romanized_lyrics = Option.some arr →
      ∃ arr2,
        (mergeSelectiveFixes (Option.some lv) fixed).romanized_lyrics
          = Option.some arr2 ∧
        arr2.length = arr.length ∧
        (∀ i : Nat,
          (∀ f ∈ fixed, f.original_line_index ≠ Option.some (i : Int)) →
          arr2[i]? = arr[i]?) ∧
        ((∀ f ∈ fixed, ∀ k : Int, f.original_line_index = Option.some k →
            k < 0 ∨ (arr.length : Int) ≤ k) → arr2 = arr)) := by
  constructor
  · intro p lfa h1 h2
    unfold createCorrectionPrompt
    rw [if_pos ⟨h1, h2⟩]
  · intro lv arr fixed hlv
    refine ⟨fixed.foldl applyFix arr, ?_, foldl_applyFix_length fixed arr,
      fun i hi => foldl_applyFix_getElem_ne fixed arr i hi,
      fun hoob => foldl_applyFix_out_of_bounds fixed arr hoob⟩
    simp only [mergeSelectiveFixes, hlv]

/-- Closed instance of `selective_fix_scoped_merge`: one flagged line of
two yields a selective prompt, and a fix at index 1 merges while keeping
index 0 unchanged (an all-out-of-bounds fix list leaves the array
intact). -/
theorem selective_fix_scoped_merge_witness :
    createCorrectionPrompt [exApiLine] exTwoApiLines
      = .selective [exApiLine] ∧
    ∃ arr2,
      (mergeSelectiveFixes (Option.some exRespTwo) [exFixLine]).romanized_lyrics
        = Option.some arr2 ∧
      arr2.length = exArrTwo.length ∧
      (∀ i : Nat,
        (∀ f ∈ [exFixLine], f.original_line_index ≠ Option.some (i : Int)) →
        arr2[i]? = exArrTwo[i]?) ∧
      ((∀ f ∈ [exFixLine], ∀ k : Int,
          f.original_line_index = Option.some k →
          k < 0 ∨ (exArrTwo.length : Int) ≤ k) → arr2 = exArrTwo) :=
  ⟨selective_fix_scoped_merge.1 [exApiLine] exTwoApiLines (by decide)
      (by decide),
   selective_fix_scoped_merge.2 exRespTwo exArrTwo [exFixLine] rfl⟩

/-- C6 counterexample: a failing validation whose flagged-line set is
empty (response without the top-level array) — zero flagged lines lie
below 80% of one line, yet the correction request is a full retry, not a
selective fix, refuting the claim as stated at that boundary. -/
theorem zero_flagged_lines_full_retry :
    (validate [exApiLine] emptyParsed).isValid = false ∧
    getProblematicLines [exApiLine] emptyParsed
      (validate [exApiLine] emptyParsed).detailedErrors = [] ∧
    5 * ([] : List SLine).length < 4 * ([exApiLine] : List SLine).length ∧
    createCorrectionPrompt [] [exApiLine] = .fullRetry [exApiLine] := by
  decide

/-! ### C5: error-repeat tracking -/

theorem attemptFirstError_some_parsed (lfa : List SLine) (attempt : Nat)
    (o : ApiOutcome) (st : RomState) (e : String)
    (h : attemptFirstError lfa attempt o st = Option.some e) :
    ∃ j, o = .parsed j := by
  cases o with
  | failed msg => exact absurd h (by simp [attemptFirstError])
  | notJson msg => exact absurd h (by simp [attemptFirstError])
  | parsed j => exact ⟨j, rfl⟩

theorem attemptFirstError_parsed_spec (lfa : List SLine) (attempt : Nat)
    (j : ParsedJson) (st : RomState) (e : String)
    (h : attemptFirstError lfa attempt (.parsed j) st = Option.some e) :
    (validate lfa (finalResponseOf attempt j st)).isValid = false ∧
    (validate lfa (finalResponseOf attempt j st)).errors.head?
      = Option.some e := by
  simp only [attemptFirstError] at h
  by_cases hv : (validate lfa (finalResponseOf attempt j st)).isValid = true
  · rw [if_pos hv] at h
    exact absurd h (by simp)
  · rw [if_neg hv] at h
    exact ⟨Bool.eq_false_iff.mpr hv, h⟩

theorem romanizeAttempt_fail_same_error_inc (lfa : List SLine)
    (attempt : Nat) (j : ParsedJson) (st : RomState) (e : String)
    (hmax : attempt ≠ MAX_RETRIES)
    (herr : attemptFirstError lfa attempt (.parsed j) st = Option.some e)
    (hsame : st.lastError = Option.some e)
    (hlt : st.sameErrorCount + 1 < 3) :
    ∃ st', romanizeAttempt lfa attempt (.parsed j) st = .next st' ∧
      st'.sameErrorCount = st.sameErrorCount + 1 ∧
      st'.lastError = Option.some e := by
  obtain ⟨hfail, hhead⟩ := attemptFirstError_parsed_spec lfa attempt j st e herr
  by_cases h1 : attempt = 1
  · subst h1
    simp only [romanizeAttempt]
    rw [if_neg (by rw [hfail]; exact Bool.false_ne_true)]
    rw [hhead, if_neg hmax]
    simp only [ite_true, hsame, eq_self_iff_true]
    rw [if_neg (show ¬(st.sameErrorCount + 1 ≥ 3) from by omega)]
    exact ⟨_, rfl, by simp, by simp⟩
  · simp only [romanizeAttempt]
    rw [if_neg (by rw [hfail]; exact Bool.false_ne_true)]
    rw [hhead, if_neg hmax, if_neg h1]
    simp only [hsame, eq_self_iff_true, ite_true]
    rw [if_neg (show ¬(st.sameErrorCount + 1 ≥ 3) from by omega)]
    exact ⟨_, rfl, by simp, by simp⟩

theorem romanizeAttempt_fail_same_error_reset (lfa : List SLine)
    (attempt : Nat) (j : ParsedJson) (st : RomState) (e : String)
    (hmax : attempt ≠ MAX_RETRIES)
    (herr : attemptFirstError lfa attempt (.parsed j) st = Option.some e)
    (hsame : st.lastError = Option.some e)
    (hge : 3 ≤ st.sameErrorCount + 1) :
    romanizeAttempt lfa attempt (.parsed j) st
      = .next { contents := [.userInitial]
                lastValidResponse := Option.none
                sameErrorCount := 0
                lastError := Option.some e } := by
  obtain ⟨hfail, hhead⟩ := attemptFirstError_parsed_spec lfa attempt j st e herr
  by_cases h1 : attempt = 1
  · subst h1
    simp only [romanizeAttempt]
    rw [if_neg (by rw [hfail]; exact Bool.false_ne_true)]
    rw [hhead, if_neg hmax]
    simp only [ite_true, hsame, eq_self_iff_true]
    rw [if_pos (show st.sameErrorCount + 1 ≥ 3 from by omega)]
  · simp only [romanizeAttempt]
    rw [if_neg (by rw [hfail]; exact Bool.false_ne_true)]
    rw [hhead, if_neg hmax, if_neg h1]
    simp only [hsame, eq_self_iff_true, ite_true]
    rw [if_pos (show st.sameErrorCount + 1 ≥ 3 from by omega)]

theorem romanizeAttempt_fail_new_error (lfa : List SLine)
    (attempt : Nat) (j : ParsedJson) (st : RomState) (e : String)
    (hmax : attempt ≠ MAX_RETRIES)
    (herr : attemptFirstError lfa attempt (.parsed j) st = Option.some e)
    (hdiff : st.lastError ≠ Option.some e) :
    ∃ st', romanizeAttempt lfa attempt (.parsed j) st = .next st' ∧
      st'.sameErrorCount = 1 ∧
      st'.lastError = Option.some e := by
  obtain ⟨hfail, hhead⟩ := attemptFirstError_parsed_spec lfa attempt j st e herr
  by_cases h1 : attempt = 1
  · subst h1
    simp only [romanizeAttempt]
    rw [if_neg (by rw [hfail]; exact Bool.false_ne_true)]
    rw [hhead, if_neg hmax]
    simp only [ite_true]
    rw [if_neg (show ¬(Option.some e
      = ({ st with lastValidResponse := Option.some j } : RomState).lastError)
      from fun hc => hdiff hc.symm)]
    rw [if_neg (show ¬((1 : Nat) ≥ 3) from by omega)]
    exact ⟨_, rfl, rfl, rfl⟩
  · simp only [romanizeAttempt]
    rw [if_neg (by rw [hfail]; exact Bool.false_ne_true)]
    rw [hhead, if_neg hmax, if_neg h1]
    rw [if_neg (show ¬(Option.some e = st.lastError)
      from fun hc => hdiff hc.symm)]
    rw [if_neg (show ¬((1 : Nat) ≥ 3) from by omega)]
    exact ⟨_, rfl, rfl, rfl⟩

/-- C5: in the conversation loop, three consecutive attempts failing with
the identical first validation error abandon the conversation — the next
state holds only the fresh initial prompt, with the stored response
cleared and the repeat counter zeroed — while an attempt whose first
error differs from the tracked one resets the repeat counter to 1. -/
theorem error_repeat_reset :
    (∀ (lfa : List SLine) (o1 o2 o3 : ApiOutcome) (st1 st2 : RomState)
        (e : String),
      romanizeAttempt lfa 1 o1 initialRomState = .next st1 →
      attemptFirstError lfa 1 o1 initialRomState = Option.some e →
      romanizeAttempt lfa 2 o2 st1 = .next st2 →
      attemptFirstError lfa 2 o2 st1 = Option.some e →
      attemptFirstError lfa 3 o3 st2 = Option.some e →
      romanizeAttempt lfa 3 o3 st2
        = .next { contents := [.userInitial]
                  lastValidResponse := Option.none
                  sameErrorCount := 0
                  lastError := Option.some e }) ∧
    (∀ (lfa : List SLine) (attempt : Nat) (o : ApiOutcome)
        (st st' : RomState) (e : String),
      attempt ≠ MAX_RETRIES →
      attemptFirstError lfa attempt o st = Option.some e →
      st.lastError ≠ Option.some e →
      romanizeAttempt lfa attempt o st = .next st' →
      st'.sameErrorCount = 1 ∧ st'.lastError = Option.some e) := by
  constructor
  · intro lfa o1 o2 o3 st1 st2 e hs1 he1 hs2 he2 he3
    obtain ⟨j1, rfl⟩ := attemptFirstError_some_parsed lfa 1 o1 initialRomState e he1
    obtain ⟨j2, rfl⟩ := attemptFirstError_some_parsed lfa 2 o2 st1 e he2
    obtain ⟨j3, rfl⟩ := attemptFirstError_some_parsed lfa 3 o3 st2 e he3
    obtain ⟨s1, heq1, hc1, hl1⟩ :=
      romanizeAttempt_fail_new_error lfa 1 j1 initialRomState e (by decide)
        he1 (by simp [initialRomState])
    rw [hs1] at heq1
    have hst1 : st1 = s1 := by
      cases heq1
      rfl
    obtain ⟨s2, heq2, hc2, hl2⟩ :=
      romanizeAttempt_fail_same_error_inc lfa 2 j2 st1 e (by decide) he2
        (by rw [hst1]; exact hl1) (by simp [hst1, hc1])
    rw [hs2] at heq2
    have hst2 : st2 = s2 := by
      cases heq2
      rfl
    exact romanizeAttempt_fail_same_error_reset lfa 3 j3 st2 e (by decide)
      he3 (by rw [hst2]; exact hl2)
      (by simp [hst2, hc2, hst1, hc1])
  · intro lfa attempt o st st' e hmax herr hdiff heq
    obtain ⟨j, rfl⟩ := attemptFirstError_some_parsed lfa attempt o st e herr
    obtain ⟨s', heq', hc', hl'⟩ :=
      romanizeAttempt_fail_new_error lfa attempt j st e hmax herr hdiff
    rw [heq] at heq'
    have : st' = s' := by
      cases heq'
      rfl
    rw [this]
    exact ⟨hc', hl'⟩

/-- Closed instance of `error_repeat_reset`: three identical
missing-array failures reset the conversation. -/
theorem error_repeat_reset_witness :
    romanizeAttempt [exApiLine] 3 (.parsed emptyParsed) c5St2
      = .next { contents := [.userInitial]
                lastValidResponse := Option.none
                sameErrorCount := 0
                lastError := Option.some c5Err } :=
  error_repeat_reset.1 [exApiLine] (.parsed emptyParsed)
    (.parsed emptyParsed) (.parsed emptyParsed) c5St1 c5St2 c5Err
    (by decide) (by decide) (by decide) (by decide) (by decide)

/-! ### C4: the validation contract -/

theorem ite_singleton_nil (c : Prop) [Decidable c] (m : String) :
    ((if c then [m] else []) = ([] : List String)) ↔ ¬c := by
  split <;> simp_all

theorem validateTextCoherence_nil_iff (r : RLine) (i : Nat) :
    validateTextCoherence r i = []
      ↔ specCoherent (r.chunk.getD []) (r.text.getD "") := by
  unfold validateTextCoherence specCoherent mergedChunkTextOf
  by_cases heq : normalizeText
      (String.join ((r.chunk.getD []).map (fun c => c.text)))
      = normalizeText (r.text.getD "")
  · rw [if_pos heq]
    simp [heq]
  · rw [if_neg heq, ite_singleton_nil]
    constructor
    · intro h
      exact Or.inr (by omega)
    · intro h
      cases h with
      | inl h' => exact absurd h' heq
      | inr h' => omega

theorem validateChunkDistribution_nil_iff (r : RLine) (i : Nat) :
    validateChunkDistribution r i = [] ↔
      ((∀ c ∈ (r.chunk.getD []), c.text.trim ≠ "") ∧
       ¬ (((r.chunk.getD []).filter
            (fun c => !(c.text.trim == ""))).length = 1 ∧
           (r.chunk.getD []).length > 1) ∧
       specCoherent (r.chunk.getD []) (r.text.getD "")) := by
  unfold validateChunkDistribution
  rw [List.append_eq_nil, List.append_eq_nil]
  rw [ite_singleton_nil, ite_singleton_nil, validateTextCoherence_nil_iff]
  constructor
  · rintro ⟨⟨h1, h2⟩, h3⟩
    refine ⟨?_, h2, h3⟩
    intro c hc hc'
    apply h1
    have hmem : c ∈ (r.chunk.getD []).filter (fun c => c.text.trim == "") :=
      List.mem_filter.mpr ⟨hc, by simp [hc']⟩
    have hne : (r.chunk.getD []).filter (fun c => c.text.trim == "") ≠ [] :=
      List.ne_nil_of_mem hmem
    have := List.length_pos.mpr hne
    omega
  · rintro ⟨h1, h2, h3⟩
    refine ⟨⟨?_, h2⟩, h3⟩
    intro hlen
    have hne : (r.chunk.getD []).filter (fun c => c.text.trim == "") ≠ [] := by
      intro hnil
      rw [hnil] at hlen
      simp at hlen
    obtain ⟨c, hc⟩ := List.exists_mem_of_ne_nil _ hne
    have hm := List.mem_filter.mp hc
    exact h1 c hm.1 (by simpa using hm.2)

theorem validateLine_nil_iff (o : SLine) (r : RLine) (index : Nat) :
    validateLine o r index = [] ↔ specLineContract o r index := by
  unfold validateLine specLineContract
  rw [List.append_eq_nil, List.append_eq_nil]
  rw [ite_singleton_nil, ite_singleton_nil]
  by_cases hoc : (o.chunk.getD []).length > 0
  · rw [if_pos hoc]
    rw [if_neg (by simp [hoc])]
    rw [if_pos hoc]
    cases hrc : r.chunk with
    | none =>
      rw [if_pos (by simp [hrc, Option.isSome])]
      constructor
      · rintro ⟨⟨_, _⟩, h3⟩
        exact absurd h3 (by simp)
      · rintro ⟨h1, h2, rcs, hrcs, _⟩
        exact absurd hrcs (by simp)
    | some rcs =>
      rw [if_neg (by simp)]
      by_cases hcnt : rcs.length = (o.chunk.getD []).length
      · rw [if_neg (by simp [hcnt])]
        rw [validateChunkDistribution_nil_iff]
        simp only [hrc, Option.getD_some]
        constructor
        · rintro ⟨⟨h1, h2⟩, hc1, hc2, hc3⟩
          refine ⟨by simpa using h1,
            by simpa [Option.isSome_iff_ne_none] using h2, rcs, rfl, hcnt,
            hc1, hc2, hc3⟩
        · rintro ⟨h1, h2, rcs', hrcs', hcnt', hc1, hc2, hc3⟩
          rw [Option.some_inj] at hrcs'
          subst hrcs'
          exact ⟨⟨by simpa using h1,
            by simpa [Option.isSome_iff_ne_none] using h2⟩, hc1, hc2, hc3⟩
      · rw [if_pos (by simpa using hcnt)]
        constructor
        · rintro ⟨⟨_, _⟩, h3⟩
          exact absurd h3 (by simp)
        · rintro ⟨h1, h2, rcs', hrcs', hcnt', _⟩
          rw [Option.some_inj] at hrcs'
          subst hrcs'
          exact absurd hcnt' hcnt
  · rw [if_neg hoc, if_neg hoc]
    cases hrc : r.chunk with
    | none =>
      rw [if_neg (by simp [hrc, Option.isSome])]
      constructor
      · rintro ⟨⟨h1, h2⟩, _⟩
        exact ⟨by simpa using h1,
          by simpa [Option.isSome_iff_ne_none] using h2, rfl⟩
      · rintro ⟨h1, h2, _⟩
        exact ⟨⟨by simpa using h1,
          by simpa [Option.isSome_iff_ne_none] using h2⟩, rfl⟩
    | some rcs =>
      rw [if_pos (by simp [hrc, hoc, Option.isSome])]
      constructor
      · rintro ⟨⟨_, _⟩, h3⟩
        exact absurd h3 (by simp)
      · rintro ⟨h1, h2, h3⟩
        exact absurd h3 (by simp)

theorem validateLines_nil_iff :
    ∀ (os : List SLine) (rs : List RLine) (idx : Nat),
      os.length = rs.length →
      ((validateLines os rs idx).1 = [] ↔
        ∀ (p : Nat) (o : SLine) (r : RLine), os[p]? = Option.some o →
          rs[p]? = Option.some r → validateLine o r (idx + p) = [])
  | [], [], idx, _ => by
    simp [validateLines]
  | [], _ :: _, idx, h => by simp at h
  | _ :: _, [], idx, h => by simp at h
  | o :: os, r :: rs, idx, h => by
    simp only [validateLines]
    rw [List.append_eq_nil]
    have ih := validateLines_nil_iff os rs (idx + 1) (by simpa using h)
    constructor
    · rintro ⟨h1, h2⟩ p o' r' hp hr
      match p with
      | 0 =>
        rw [List.getElem?_cons_zero, Option.some_inj] at hp hr
        subst hp
        subst hr
        simpa using h1
      | p + 1 =>
        rw [List.getElem?_cons_succ] at hp hr
        have hres := (ih.mp h2) p o' r' hp hr
        rw [show idx + (p + 1) = idx + 1 + p from by omega]
        exact hres
    · intro hall
      refine ⟨by simpa using hall 0 o r (by simp) (by simp), ?_⟩
      apply ih.mpr
      intro p o' r' hp hr
      have hres := hall (p + 1) o' r'
        (by rw [List.getElem?_cons_succ]; exact hp)
        (by rw [List.getElem?_cons_succ]; exact hr)
      rw [show idx + 1 + p = idx + (p + 1) from by omega]
      exact hres

/-- C4: `ResponseValidator.validate` accepts a response exactly when the
spec's validation contract holds: top-level array present with the
structured-line count, and for every line in order the declared index,
string text, chunk presence/count, empty-chunk, concentration and 20%
coherence conditions. -/
theorem validate_isValid_iff_contract (input : List SLine)
    (resp : ParsedJson) :
    (validate input resp).isValid = true
      ↔ specValidationContract input resp := by
  cases hrl : resp.romanized_lyrics with
  | none => simp [validate, specValidationContract, hrl]
  | some arr =>
    simp only [validate, specValidationContract, hrl]
    by_cases hlen : arr.length = input.length
    · rw [if_neg (by omega)]
      simp only [List.isEmpty_iff]
      rw [validateLines_nil_iff input arr 0 hlen.symm]
      constructor
      · intro h
        refine ⟨arr, rfl, hlen, ?_⟩
        intro i o r hi hr
        have hline := h i o r hi hr
        rw [validateLine_nil_iff] at hline
        simpa using hline
      · rintro ⟨arr', harr', hlen', hall⟩
        rw [Option.some_inj] at harr'
        subst harr'
        intro p o r hp hr
        rw [validateLine_nil_iff]
        simpa using hall p o r hp hr
    · rw [if_pos (by omega)]
      constructor
      · intro hcontra
        exact absurd hcontra (by simp)
      · rintro ⟨arr', harr', hlen', _⟩
        rw [Option.some_inj] at harr'
        subst harr'
        exact absurd hlen' hlen

/-- Closed instance of `validate_isValid_iff_contract`: a well-formed
one-line response satisfies the spec contract. -/
theorem validate_isValid_iff_contract_witness :
    specValidationContract [exApiLine] c4GoodResp :=
  (validate_isValid_iff_contract [exApiLine] c4GoodResp).mp (by decide)

/-! ### C2: request coalescing -/

theorem fetchOkPath_inFetch (pc : TPC) (h : fetchOkPath pc = true) :
    inFetch pc = true := by
  cases pc <;> simp_all [fetchOkPath, inFetch]

/-- C2 counterexample: a reachable interleaving of two concurrent
`getOrFetch` calls (no forceReload, empty caches, providers succeeding)
in which *two* provider fetches run and the callers resolve to different
results: the claim's "exactly one underlying provider fetch and both
resolve to the same result" fails. -/
theorem concurrent_double_fetch :
    (runSched true true c2RaceSchedule initC2).taskA.pc = .taskDone ∧
    (runSched true true c2RaceSchedule initC2).taskB.pc = .taskDone ∧
    (runSched true true c2RaceSchedule initC2).shared.providerCalls = 2 ∧
    (runSched true true c2RaceSchedule initC2).taskA.res
      ≠ (runSched true true c2RaceSchedule initC2).taskB.res := by
  decide

theorem C2Inv_symm (ok1 : Bool) (tA tB : TaskState) (s : SharedSt)
    (h : C2Inv ok1 tA tB s) : C2Inv ok1 tB tA s := by
  obtain ⟨h1, h2, h3, h4, h5, h6, h7, h8, h9, h10, h11, h12, h13, h14,
    h15, h16, h17, h18, h19, h20⟩ := h
  exact ⟨by omega, by omega, by omega, by rw [h4, Bool.or_comm],
    fun hh => h5 ⟨hh.2, hh.1⟩, h7, h6, h9, h8, h10, h11, h12, h14, h13,
    h16, h15, h18, h17, h20, h19⟩

theorem C2Inv_init (ok1 : Bool) :
    C2Inv ok1 initC2.taskA initC2.taskB initC2.shared := by
  refine ⟨rfl, rfl, rfl, rfl, ?_, ?_, ?_, ?_, ?_, ?_, ?_, ?_, ?_, ?_,
    ?_, ?_, ?_, ?_, ?_, ?_⟩ <;>
    simp [initC2, inFetch, preFetch, fetchOkPath]

theorem bc_true : bc true = 1 := rfl

theorem bc_false : bc false = 0 := rfl

theorem bc_le_one (b : Bool) : bc b ≤ 1 := by
  cases b <;> simp [bc]

theorem started_fs_one (fs : Nat) (sb : Bool)
    (h1 : fs = bc true + bc sb) (hle : fs ≤ 1) : fs = 1 := by
  have e1 : bc true = 1 := rfl
  have e2 : bc sb ≤ 1 := bc_le_one sb
  omega

theorem C2Inv_taskStep (ok1 ok2 : Bool) (t other : TaskState) (s : SharedSt)
    (h : C2Inv ok1 t other s) :
    C2Inv ok1 (taskStep ok1 ok2 t s).1 other (taskStep ok1 ok2 t s).2 := by
  obtain ⟨h1, h2, h3, h4, h5, h6, h7, h8, h9, h10, h11, h12, h13, h14,
    h15, h16, h17, h18, h19, h20⟩ := h
  cases hpc : t.pc with
  | start =>
    rw [hpc] at h2 h3 h4 h5 h6 h8 h15 h17
    cases hm : s.mem with
    | some v =>
      simp only [taskStep, hpc, hm]
      refine ⟨h1, h2, h3, h4, h5, by simp [inFetch], h7, by simp [preFetch],
        h9, h10, h11, h12, ?_, h14, by simp [fetchOkPath], h16, by simp,
        h18, fun _ => rfl, h20⟩
      intro hle
      have hle2 : s.fetchStarts ≤ 1 := hle
      rcases h10 hle2 with hmem | ⟨hok, hfs, hmem⟩
      · rw [hm] at hmem; exact absurd hmem (by simp)
      · rw [hm] at hmem
        injection hmem with hv
        subst hv
        exact Or.inr ⟨hfs, by simp [r1Of, hok]⟩
    | none =>
      simp only [taskStep, hpc, hm]
      exact ⟨h1, h2, h3, h4, h5, by simp [inFetch], h7, fun _ => h8 rfl,
        h9, h10, h11, h12, h13, h14, by simp [fetchOkPath], h16, by simp,
        h18, by simp, h20⟩
  | dbCheck =>
    rw [hpc] at h2 h3 h4 h5 h6 h8 h15 h17
    cases hdb : s.db with
    | some v =>
      simp only [taskStep, hpc, hdb]
      refine ⟨h1, h2, h3, h4, h5, by simp [inFetch], h7, by simp [preFetch],
        h9, ?_, ?_, h12, ?_, h14, by simp [fetchOkPath], h16, by simp,
        h18, fun _ => rfl, h20⟩
      · intro hle
        have hle2 : s.fetchStarts ≤ 1 := hle
        rcases h11 hle2 with hd | ⟨hok, hfs, hd⟩
        · rw [hdb] at hd; exact absurd hd (by simp)
        · rw [hdb] at hd
          injection hd with hv
          subst hv
          exact Or.inr ⟨hok, hfs, rfl⟩
      · intro hle
        have hle2 : s.fetchStarts ≤ 1 := hle
        rcases h11 hle2 with hd | ⟨hok, hfs, hd⟩
        · rw [hdb] at hd; exact absurd hd (by simp)
        · rw [hdb] at hd
          injection hd with hv
          subst hv
          exact Or.inr ⟨hok, hfs, rfl⟩
      · intro hle
        have hle2 : s.fetchStarts ≤ 1 := hle
        rcases h11 hle2 with hd | ⟨hok, hfs, hd⟩
        · rw [hdb] at hd; exact absurd hd (by simp)
        · rw [hdb] at hd
          injection hd with hv
          subst hv
          exact Or.inr ⟨hfs, by simp [r1Of, hok]⟩
    | none =>
      simp only [taskStep, hpc, hdb]
      exact ⟨h1, h2, h3, h4, h5, by simp [inFetch], h7, fun _ => h8 rfl,
        h9, h10, h11, h12, h13, h14, by simp [fetchOkPath], h16, by simp,
        h18, by simp, h20⟩
  | localCheck =>
    rw [hpc] at h2 h3 h4 h5 h6 h8 h15 h17
    simp only [taskStep, hpc]
    exact ⟨h1, h2, h3, h4, h5, by simp [inFetch], h7, fun _ => h8 rfl, h9,
      h10, h11, h12, h13, h14, by simp [fetchOkPath], h16, by simp, h18,
      by simp, h20⟩
  | regCheck =>
    rw [hpc] at h2 h3 h4 h5 h6 h8 h15 h17
    cases hog : s.ongoing with
    | true =>
      simp only [taskStep, hpc, hog, if_true]
      exact ⟨h1, h2, h3, h4, h5, by simp [inFetch], h7, by simp [preFetch],
        h9, h10, h11, h12, h13, h14, by simp [fetchOkPath], h16, by simp,
        h18, by simp, h20⟩
    | false =>
      have hsa : t.started = false := h8 rfl
      have hio : inFetch other.pc = false := by
        rw [hog] at h4
        simpa [inFetch] using h4.symm
      have hnf : other.pc ≠ TPC.fetchCall := by
        intro hh
        rw [hh] at hio
        simp [inFetch] at hio
      simp only [taskStep, hpc, hog]
      refine ⟨?_, ?_, ?_, rfl, by simp [hio], fun _ => rfl, h7,
        by simp [preFetch], h9, ?_, ?_, fun _ => Or.inl rfl, ?_, ?_,
        by simp [fetchOkPath], ?_, by simp, ?_, by simp, h20⟩
      · show s.fetchStarts + 1 = bc true + bc other.started
        rw [hsa] at h1
        have e0 : bc false = 0 := rfl
        have e1 : bc true = 1 := rfl
        omega
      · show s.fetchStarts + 1
          = s.deleteCount + bc (inFetch TPC.fetchCall) + bc (inFetch other.pc)
        rw [hio] at h2 ⊢
        have e0 : bc false = 0 := rfl
        have e1 : bc (inFetch TPC.regCheck) = 0 := rfl
        have e2 : bc (inFetch TPC.fetchCall) = 1 := rfl
        omega
      · show s.fetchStarts + 1 = s.providerCalls
          + bc (decide (TPC.fetchCall = TPC.fetchCall))
          + bc (decide (other.pc = TPC.fetchCall))
        rw [decide_eq_false hnf] at h3 ⊢
        have e0 : bc false = 0 := rfl
        have e1 : bc (decide (TPC.regCheck = TPC.fetchCall)) = 0 := rfl
        have e2 : bc (decide (TPC.fetchCall = TPC.fetchCall)) = 1 := rfl
        omega
      · intro hle
        have hle2 : s.fetchStarts + 1 ≤ 1 := hle
        rcases h10 (by omega) with hmem | ⟨_, hfs, _⟩
        · exact Or.inl hmem
        · omega
      · intro hle
        have hle2 : s.fetchStarts + 1 ≤ 1 := hle
        rcases h11 (by omega) with hd | ⟨_, hfs, _⟩
        · exact Or.inl hd
        · omega
      · intro hle
        have hle2 : s.fetchStarts + 1 ≤ 1 := hle
        rcases h13 (by omega) with hr | ⟨hfs, _⟩
        · exact Or.inl hr
        · omega
      · intro hle
        have hle2 : s.fetchStarts + 1 ≤ 1 := hle
        rcases h14 (by omega) with hr | ⟨hfs, _⟩
        · exact Or.inl hr
        · omega
      · intro _ hpath
        exact absurd (fetchOkPath_inFetch _ hpath) (by simp [hio])
      · intro _ herr
        rw [herr] at hio
        simp [inFetch] at hio
  | fetchCall =>
    rw [hpc] at h2 h3 h4 h5 h6 h8 h15 h17
    have hio : inFetch other.pc = false := by
      cases hio2 : inFetch other.pc
      · rfl
      · exact absurd ⟨rfl, hio2⟩ h5
    have hnf : other.pc ≠ TPC.fetchCall := by
      intro hh
      rw [hh] at hio
      simp [inFetch] at hio
    simp only [taskStep, hpc]
    cases hok : (if s.fetchStarts = 1 then ok1 else ok2) with
    | false =>
      refine ⟨h1, h2, ?_, h4, h5, fun _ => h6 rfl, h7, by simp [preFetch],
        h9, h10, h11, h12, h13, h14, by simp [fetchOkPath], h16, ?_, h18,
        by simp, h20⟩
      · show s.fetchStarts = s.providerCalls + 1
          + bc (decide (TPC.fetchAfterErr = TPC.fetchCall))
          + bc (decide (other.pc = TPC.fetchCall))
        rw [decide_eq_false hnf] at h3 ⊢
        have e0 : bc false = 0 := rfl
        have e1 : bc (decide (TPC.fetchCall = TPC.fetchCall)) = 1 := rfl
        have e2 : bc (decide (TPC.fetchAfterErr = TPC.fetchCall)) = 0 := rfl
        omega
      · intro hfs1 _
        rw [if_pos hfs1] at hok
        exact hok
    | true =>
      refine ⟨h1, h2, ?_, h4, h5, fun _ => h6 rfl, h7, by simp [preFetch],
        h9, h10, h11, h12, h13, h14, ?_, h16, by simp, h18,
        by simp, h20⟩
      · show s.fetchStarts = s.providerCalls + 1
          + bc (decide (TPC.fetchAfterOk = TPC.fetchCall))
          + bc (decide (other.pc = TPC.fetchCall))
        rw [decide_eq_false hnf] at h3 ⊢
        have e0 : bc false = 0 := rfl
        have e1 : bc (decide (TPC.fetchCall = TPC.fetchCall)) = 1 := rfl
        have e2 : bc (decide (TPC.fetchAfterOk = TPC.fetchCall)) = 0 := rfl
        omega
      · intro hfs1 _
        rw [if_pos hfs1] at hok
        exact hok
  | fetchAfterOk =>
    rw [hpc] at h2 h3 h4 h5 h6 h8 h15 h17
    have hst : t.started = true := h6 rfl
    simp only [taskStep, hpc]
    refine ⟨h1, h2, h3, h4, h5, fun _ => h6 rfl, h7, by simp [preFetch], h9,
      ?_, h11, h12, h13, h14, fun hf _ => h15 hf rfl, h16, by simp, h18,
      by simp, h20⟩
    intro hle
    have hle2 : s.fetchStarts ≤ 1 := hle
    have hfs1 := started_fs_one s.fetchStarts other.started (hst ▸ h1) hle2
    refine Or.inr ⟨h15 hfs1 rfl, hfs1, ?_⟩
    show Option.some s.fetchStarts = Option.some 1
    rw [hfs1]
  | fetchDbSet =>
    rw [hpc] at h2 h3 h4 h5 h6 h8 h15 h17
    have hst : t.started = true := h6 rfl
    simp only [taskStep, hpc]
    refine ⟨h1, h2, h3, h4, h5, fun _ => h6 rfl, h7, by simp [preFetch], h9,
      h10, ?_, h12, h13, h14, fun hf _ => h15 hf rfl, h16, by simp, h18,
      by simp, h20⟩
    intro hle
    have hle2 : s.fetchStarts ≤ 1 := hle
    have hfs1 := started_fs_one s.fetchStarts other.started (hst ▸ h1) hle2
    refine Or.inr ⟨h15 hfs1 rfl, hfs1, ?_⟩
    show Option.some s.fetchStarts = Option.some 1
    rw [hfs1]
  | fetchSettle =>
    rw [hpc] at h2 h3 h4 h5 h6 h8 h15 h17
    have hst : t.started = true := h6 rfl
    have hio : inFetch other.pc = false := by
      cases hio2 : inFetch other.pc
      · rfl
      · exact absurd ⟨rfl, hio2⟩ h5
    simp only [taskStep, hpc]
    refine ⟨h1, ?_, h3, hio.symm, by simp [inFetch], by simp [inFetch], h7,
      by simp [preFetch], h9, h10, h11, ?_, ?_, h14, by simp [fetchOkPath],
      h16, by simp, h18, fun _ => rfl, h20⟩
    · show s.fetchStarts
        = s.deleteCount + 1 + bc (inFetch TPC.taskDone) + bc (inFetch other.pc)
      rw [hio] at h2 ⊢
      have e0 : bc false = 0 := rfl
      have e1 : bc (inFetch TPC.fetchSettle) = 1 := rfl
      have e2 : bc (inFetch TPC.taskDone) = 0 := rfl
      omega
    · intro hle
      have hle2 : s.fetchStarts ≤ 1 := hle
      have hfs1 := started_fs_one s.fetchStarts other.started (hst ▸ h1) hle2
      refine Or.inr ⟨hfs1, ?_⟩
      show Option.some (Except.ok s.fetchStarts) = Option.some (r1Of ok1)
      rw [hfs1]
      simp [r1Of, h15 hfs1 rfl]
    · intro hle
      have hle2 : s.fetchStarts ≤ 1 := hle
      have hfs1 := started_fs_one s.fetchStarts other.started (hst ▸ h1) hle2
      refine Or.inr ⟨hfs1, ?_⟩
      show Option.some (Except.ok s.fetchStarts) = Option.some (r1Of ok1)
      rw [hfs1]
      simp [r1Of, h15 hfs1 rfl]
  | fetchAfterErr =>
    rw [hpc] at h2 h3 h4 h5 h6 h8 h15 h17
    have hst : t.started = true := h6 rfl
    have hio : inFetch other.pc = false := by
      cases hio2 : inFetch other.pc
      · rfl
      · exact absurd ⟨rfl, hio2⟩ h5
    simp only [taskStep, hpc]
    refine ⟨h1, ?_, h3, hio.symm, by simp [inFetch], by simp [inFetch], h7,
      by simp [preFetch], h9, h10, h11, ?_, ?_, h14, by simp [fetchOkPath],
      h16, by simp, h18, fun _ => rfl, h20⟩
    · show s.fetchStarts
        = s.deleteCount + 1 + bc (inFetch TPC.taskDone) + bc (inFetch other.pc)
      rw [hio] at h2 ⊢
      have e0 : bc false = 0 := rfl
      have e1 : bc (inFetch TPC.fetchAfterErr) = 1 := rfl
      have e2 : bc (inFetch TPC.taskDone) = 0 := rfl
      omega
    · intro hle
      have hle2 : s.fetchStarts ≤ 1 := hle
      have hfs1 := started_fs_one s.fetchStarts other.started (hst ▸ h1) hle2
      refine Or.inr ⟨hfs1, ?_⟩
      show Option.some (Except.error ()) = Option.some (r1Of ok1)
      simp [r1Of, h17 hfs1 rfl]
    · intro hle
      have hle2 : s.fetchStarts ≤ 1 := hle
      have hfs1 := started_fs_one s.fetchStarts other.started (hst ▸ h1) hle2
      refine Or.inr ⟨hfs1, ?_⟩
      show Option.some (Except.error ()) = Option.some (r1Of ok1)
      simp [r1Of, h17 hfs1 rfl]
  | waitJoin =>
    cases hres : s.resolved with
    | some r =>
      rw [hpc] at h2 h3 h4 h5 h6 h8 h15 h17
      simp only [taskStep, hpc, hres]
      refine ⟨h1, h2, h3, h4, h5, by simp [inFetch], h7, by simp [preFetch],
        h9, h10, h11, h12, ?_, h14, by simp [fetchOkPath], h16, by simp,
        h18, fun _ => rfl, h20⟩
      intro hle
      have hle2 : s.fetchStarts ≤ 1 := hle
      rcases h12 hle2 with hr | ⟨hfs, hr⟩
      · rw [hres] at hr
        exact absurd hr (by simp)
      · rw [hres] at hr
        injection hr with hrr
        exact Or.inr ⟨hfs, by rw [hrr]⟩
    | none =>
      simp only [taskStep, hpc, hres]
      exact ⟨h1, h2, h3, h4, h5, h6, h7, h8, h9, h10, h11, h12, h13, h14,
        h15, h16, h17, h18, h19, h20⟩
  | taskDone =>
    simp only [taskStep, hpc]
    exact ⟨h1, h2, h3, h4, h5, h6, h7, h8, h9, h10, h11, h12, h13, h14,
      h15, h16, h17, h18, h19, h20⟩

theorem C2Inv_stepSched (ok1 ok2 : Bool) (c : C2Config) (b : Bool)
    (h : C2Inv ok1 c.taskA c.taskB c.shared) :
    C2Inv ok1 (stepSched ok1 ok2 c b).taskA (stepSched ok1 ok2 c b).taskB
      (stepSched ok1 ok2 c b).shared := by
  cases b with
  | true => exact C2Inv_taskStep ok1 ok2 c.taskA c.taskB c.shared h
  | false =>
    exact C2Inv_symm ok1 _ _ _
      (C2Inv_taskStep ok1 ok2 c.taskB c.taskA c.shared
        (C2Inv_symm ok1 _ _ _ h))

theorem C2Inv_runSched (ok1 ok2 : Bool) :
    ∀ (sched : List Bool) (c : C2Config),
      C2Inv ok1 c.taskA c.taskB c.shared →
      C2Inv ok1 (runSched ok1 ok2 sched c).taskA
        (runSched ok1 ok2 sched c).taskB
        (runSched ok1 ok2 sched c).shared
  | [], _, h => h
  | b :: rest, c, h =>
    C2Inv_runSched ok1 ok2 rest (stepSched ok1 ok2 c b)
      (C2Inv_stepSched ok1 ok2 c b h)

/-- C2 (amended): under every interleaving of two concurrent
`getOrFetch` calls for the same song with forceReload=false, once both
callers have resolved: the in-flight registry is empty and its entry was
removed exactly once per started fetch (the scoped-release part of the
claim holds, on success and failure paths alike); and whenever only one
fetch was started — i.e. the second caller reached the registry check
while the first fetch was still pending — there was exactly one provider
call and both callers resolved to the same result, namely the settled
value of that single fetch. (The coalescing part is conditional: the
counterexample shows an interleaving with two fetches and differing
results.) -/
theorem single_flight_coalescing (ok1 ok2 : Bool) (sched : List Bool)
    (hA : (runSched ok1 ok2 sched initC2).taskA.pc = .taskDone)
    (hB : (runSched ok1 ok2 sched initC2).taskB.pc = .taskDone) :
    (runSched ok1 ok2 sched initC2).shared.ongoing = false ∧
    (runSched ok1 ok2 sched initC2).shared.deleteCount
      = (runSched ok1 ok2 sched initC2).shared.fetchStarts ∧
    ((runSched ok1 ok2 sched initC2).shared.fetchStarts = 1 →
      (runSched ok1 ok2 sched initC2).shared.providerCalls = 1 ∧
      (runSched ok1 ok2 sched initC2).taskA.res
        = (runSched ok1 ok2 sched initC2).taskB.res ∧
      (runSched ok1 ok2 sched initC2).taskA.res
        = Option.some (r1Of ok1)) := by
  obtain ⟨h1, h2, h3, h4, h5, h6, h7, h8, h9, h10, h11, h12, h13, h14,
    h15, h16, h17, h18, h19, h20⟩ :=
    C2Inv_runSched ok1 ok2 sched initC2 (C2Inv_init ok1)
  rw [hA, hB] at h2 h3 h4
  refine ⟨by simpa [inFetch] using h4, ?_, ?_⟩
  · have e0 : bc (inFetch TPC.taskDone) = 0 := rfl
    omega
  · intro hfs1
    have e0 : bc (decide (TPC.taskDone = TPC.fetchCall)) = 0 := rfl
    refine ⟨by omega, ?_, ?_⟩
    · rcases h13 (by omega) with hr | ⟨_, hr⟩
      · have hs := h19 hA
        rw [hr] at hs
        simp at hs
      · rcases h14 (by omega) with hr2 | ⟨_, hr2⟩
        · have hs := h20 hB
          rw [hr2] at hs
          simp at hs
        · rw [hr, hr2]
    · rcases h13 (by omega) with hr | ⟨_, hr⟩
      · have hs := h19 hA
        rw [hr] at hs
        simp at hs
      · exact hr

/-- Witness for the amended C2 theorem: the joining interleaving, in
which the second caller finds the in-flight entry and awaits it; one
fetch, one provider call, both callers resolve to the fetched value. -/
theorem single_flight_coalescing_witness :
    (runSched true true c2JoinSchedule initC2).taskA.pc = .taskDone ∧
    (runSched true true c2JoinSchedule initC2).taskB.pc = .taskDone ∧
    (runSched true true c2JoinSchedule initC2).shared.fetchStarts = 1 ∧
    ((runSched true true c2JoinSchedule initC2).shared.ongoing = false ∧
     (runSched true true c2JoinSchedule initC2).shared.deleteCount
       = (runSched true true c2JoinSchedule initC2).shared.fetchStarts ∧
     ((runSched true true c2JoinSchedule initC2).shared.fetchStarts = 1 →
       (runSched true true c2JoinSchedule initC2).shared.providerCalls = 1 ∧
       (runSched true true c2JoinSchedule initC2).taskA.res
         = (runSched true true c2JoinSchedule initC2).taskB.res ∧
       (runSched true true c2JoinSchedule initC2).taskA.res
         = Option.some (r1Of true))) :=
  ⟨by decide, by decide, by decide,
   single_flight_coalescing true true c2JoinSchedule (by decide) (by decide)⟩

end NewSync
